import Mathlib

/-! Disgo pub/sub broker: embedding and verified properties

A shallow embedding of `commons/pubsub` (`http_publisher.go`, `publisher.go`,
`topic.go`, `subscription.go`) and of the hashing, JSON and name-index code of
`commons/types` (`transaction.go`, `account.go`).

Modelling conventions
* Go maps with string keys are association lists with distinct keys; `set`
  replaces the value of a present key and appends an absent one.  Ranging
  over a map visits the keys in list order (one of the orders Go allows).
* Pointers that the source itself sets to `nil` are `Option`s
  (`Topic.Subscriptions` holds `*Subscription`, `bundledMessage.msg` holds
  `*Message`).  Objects reached through a pointer are stored by value in their
  owner, so each registry entry owns its subscription.
* `[]byte` is `List Nat`, `error` is `Option GoError` with the error text.
* A call that can panic returns a `Run`: either `done` with the state and the
  returned values, or `panic` with the state reached when the panic started.
* The outside world (JSON encoder, URL parser, HTTP transport) is an `Env`.
* `crypto.NewHash` and the clock are parameters of the functions that use them.
* A JSON text is the object it spells (`GoMap JsonField`); the account codec
  and `strings.ToLower` are parameters of the account functions.
* The use of `t.mu` is embedded separately, as the sequence of lock and write
  events of each method.
-/

namespace Disgo

abbrev Bytes := List Nat

abbrev GoError := String

/-- Outcome of a call that may panic; both cases carry the state reached. -/
inductive Run (σ α : Type) where
  | done (st : σ) (ret : α)
  | panic (st : σ) (msg : String)
deriving DecidableEq, Repr

/-- State carried by an outcome. -/
def Run.state {σ α : Type} : Run σ α → σ
  | .done st _ => st
  | .panic st _ => st

/-- Whether the call returned to its caller. -/
def Run.returned {σ α : Type} : Run σ α → Bool
  | .done _ _ => true
  | .panic _ _ => false

/-! ## Go maps -/

abbrev GoMap (α : Type) := List (String × α)

namespace GoMap

variable {α : Type}

/-- Value of `m[key]` with the comma-ok flag folded into the option. -/
def get? : GoMap α → String → Option α
  | [], _ => none
  | (k, v) :: m, key => if k = key then some v else get? m key

/-- The `ok` of `_, ok := m[key]`. -/
def contains (m : GoMap α) (key : String) : Bool := (get? m key).isSome

/-- Assignment `m[key] = v`. -/
def set : GoMap α → String → α → GoMap α
  | [], key, v => [(key, v)]
  | (k, w) :: m, key, v => if k = key then (k, v) :: m else (k, w) :: set m key v

/-- Keys in iteration order. -/
def keys (m : GoMap α) : List String := m.map Prod.fst

end GoMap

/-! ## publisher.go -/

structure Message where
  Body : Bytes
deriving DecidableEq, Repr

/-- State of a `chan struct{}` on which nothing is ever sent. -/
inductive Chan where
  | nil
  | opened
  | closed
deriving DecidableEq, Repr

structure PublishResult where
  ready : Chan
  result : String
  err : Option GoError
deriving DecidableEq, Repr

/-- The value `&PublishResult{ready: make(chan struct{})}` built by `Topic.Publish`. -/
def PublishResult.fresh : PublishResult :=
  { ready := Chan.opened, result := "", err := none }

def PublishResult.Ready (r : PublishResult) : Chan := r.ready

/-- A receive from the channel returned by `Ready()` completes exactly when the
channel is closed: nothing is ever sent on it. -/
def Chan.observable : Chan → Bool
  | .closed => true
  | _ => false

def PublishResult.Get (r : PublishResult) : String × Option GoError :=
  (r.result, r.err)

/-- Semantics of `close(c)`: closing a nil or closed channel panics. -/
def Chan.close : Chan → Except String Chan
  | .opened => .ok .closed
  | .closed => .error "close of closed channel"
  | .nil => .error "close of nil channel"

/-- The two field assignments run first, then `close(r.ready)`. -/
def PublishResult.Set (r : PublishResult) (result : String) (err : Option GoError) :
    Run PublishResult Unit :=
  let r1 := { r with result := result }
  let r2 := { r1 with err := err }
  match r2.ready.close with
  | .ok c => .done { r2 with ready := c } ()
  | .error msg => .panic r2 msg

structure PublishRequest where
  Topic : String
  Messages : List (Option Message)
deriving DecidableEq, Repr

structure PublishResponse where
  MessageResults : List String
deriving DecidableEq, Repr

/-! ## subscription.go -/

structure Subscription where
  Hash : String
  Endpoint : String
  Headers : GoMap String
  Address : String
  Created : Int
  ErrCount : Int
deriving DecidableEq, Repr

/-! ## topic.go -/

def TOPIC_EXISTS : GoError := "TOPIC_EXISTS"

def TOPIC_NOTFOUND : GoError := "TOPIC_NOTFOUND"

structure PublishSettings where
  DelayThreshold : Int
  CountThreshold : Int
  NumGoroutines : Int
  ErrorThreshold : Int
deriving DecidableEq, Repr

/-- Durations are nanoseconds: `10 * time.Millisecond`. -/
def DefaultPublishSettings : PublishSettings :=
  { DelayThreshold := 10 * 1000000
    CountThreshold := 100
    NumGoroutines := 0
    ErrorThreshold := 5 }

structure bundledMessage where
  msg : Option Message
  res : PublishResult
deriving DecidableEq, Repr

/-- The fields of `bundler.Bundler` that `topic.go` assigns. -/
structure Bundler where
  DelayThreshold : Int
  BundleCountThreshold : Int
  HandlerLimit : Int
deriving DecidableEq, Repr

/-- A topic; `Publisher` is the interface value, `none` for nil and otherwise
the address of the publisher it points to. -/
structure Topic where
  name : String
  PublishSettings : PublishSettings
  Subscriptions : GoMap (Option Subscription)
  Publisher : Option Nat
  bundler : Option Bundler
deriving DecidableEq, Repr

def NewTopic (name : String) : Topic :=
  { name := name
    PublishSettings := DefaultPublishSettings
    Subscriptions := []
    Publisher := none
    bundler := none }

/-! ## http_publisher.go -/

/-- A publisher at address `addr`. -/
structure HTTPPublisher where
  addr : Nat
  Topics : GoMap Topic
deriving DecidableEq, Repr

def HTTPPublisher.Init (p : HTTPPublisher) : HTTPPublisher :=
  { p with Topics := [] }

/-- `NewHTTPPublisher` allocating the publisher at address `addr`. -/
def NewHTTPPublisher (addr : Nat) : HTTPPublisher :=
  HTTPPublisher.Init { addr := addr, Topics := [] }

def HTTPPublisher.TopicExists (p : HTTPPublisher) (name : String) : Bool :=
  p.Topics.contains name

def HTTPPublisher.CreateTopic (p : HTTPPublisher) (name : String) :
    (Option Topic × Option GoError) × HTTPPublisher :=
  if p.TopicExists name then
    ((none, some TOPIC_EXISTS), p)
  else
    let topic := NewTopic name
    let topic := { topic with Publisher := some p.addr }
    ((some topic, none), { p with Topics := p.Topics.set topic.name topic })

def HTTPPublisher.GetTopic (p : HTTPPublisher) (name : String) :
    Option Topic × Option GoError :=
  if p.TopicExists name then
    (p.Topics.get? name, none)
  else
    (none, some TOPIC_NOTFOUND)

/-- State after calling `CreateTopic` on each name in turn. -/
def HTTPPublisher.createTopics (p : HTTPPublisher) : List String → HTTPPublisher
  | [] => p
  | n :: ns => HTTPPublisher.createTopics (p.CreateTopic n).2 ns

/-! ### The outside world -/

structure HTTPRequest where
  method : String
  url : String
  headers : GoMap String
  body : Bytes
deriving DecidableEq, Repr

/-- One call of `client.Do`: the registry key being served, the request as it
stood when the call was made, and the error the call returned. -/
structure Attempt where
  key : String
  req : HTTPRequest
  err : Option GoError
deriving DecidableEq, Repr

/-- Library behaviour the broker depends on, over a network state `σ`.
* `jsonMarshal` is `json.Marshal` on a `[]*Message`;
* `parseURL url` tells whether `http.NewRequest("POST", url, body)` returns a
  request (it fails, returning a nil request, when the URL does not parse);
* `clientDo` is `client.Do`: the returned error and the number of bytes the
  transport read from the request body. -/
structure Env (σ : Type) where
  jsonMarshal : List (Option Message) → Except GoError Bytes
  parseURL : String → Bool
  clientDo : σ → HTTPRequest → (Option GoError × Nat) × σ

/-- The publisher, the network, and every `client.Do` call made so far
(oldest first). -/
structure World (σ : Type) where
  pub : HTTPPublisher
  net : σ
  log : List Attempt
deriving DecidableEq, Repr

def PublishRequest.GetMessagesBytes {σ : Type} (env : Env σ) (m : PublishRequest) :
    Except GoError Bytes :=
  env.jsonMarshal m.Messages

/-- Arithmetic on `int64` wraps around. -/
def wrapInt64 (x : Int) : Int := (x + 2 ^ 63) % 2 ^ 64 - 2 ^ 63

/-- The entry is overwritten with nil; an absent key is added with nil. -/
def Topic.Unsubscribe (t : Topic) (subHash : String) : Option GoError × Topic :=
  (none, { t with Subscriptions := t.Subscriptions.set subHash none })

/-- Variables of the delivery loop of `HTTPPublisher.Publish`: the topic
object, the unread part of the shared `bytes.Buffer`, the network, the
response slice being filled and the calls made. -/
structure PubLoop (σ : Type) where
  topic : Topic
  buf : Bytes
  net : σ
  res : List String
  log : List Attempt
deriving DecidableEq, Repr

/-- Text of the runtime error for a nil dereference, without the prefix
`runtime error: `. -/
def nilDeref : String := "invalid memory address or nil pointer dereference"

/-- Text recorded for one delivery. -/
def outcomeText : Option GoError → String
  | none => "Ok"
  | some e => e

/-- Body of the delivery loop for the entry at position `i` under `key`.
The source indexes `res.MessageResults` with the range variable of the map,
which does not type-check; the slot is read here as the position of the entry
in the range.  The entry is read when it is visited. A nil entry panics at
`sub.Endpoint`; a nil request (unparseable URL) panics in `client.Do`.  The request body is
the shared buffer, which the transport drains as it reads. -/
def publishStep {σ : Type} (env : Env σ) (i : Nat) (key : String) (s : PubLoop σ) :
    Run (PubLoop σ) Unit :=
  match s.topic.Subscriptions.get? key with
  | none => .done s ()
  | some none => .panic s nilDeref
  | some (some sub) =>
    if env.parseURL sub.Endpoint then
      let req : HTTPRequest :=
        { method := "POST", url := sub.Endpoint, headers := sub.Headers, body := s.buf }
      let out := env.clientDo s.net req
      let err := out.1.1
      let s1 : PubLoop σ :=
        { s with
          buf := s.buf.drop out.1.2
          net := out.2
          log := s.log ++ [{ key := key, req := req, err := err }] }
      match err with
      | some e =>
        let s2 := { s1 with res := s1.res.set i e }
        let sub1 : Subscription := { sub with ErrCount := wrapInt64 (sub.ErrCount + 1) }
        let topic1 : Topic :=
          { s2.topic with Subscriptions := s2.topic.Subscriptions.set key (some sub1) }
        if topic1.PublishSettings.ErrorThreshold ≤ sub1.ErrCount then
          .done { s2 with topic := (topic1.Unsubscribe sub1.Hash).2 } ()
        else
          .done { s2 with topic := topic1 } ()
      | none => .done { s1 with res := s1.res.set i "Ok" } ()
    else
      .panic s nilDeref

/-- The loop `for i, sub := range topic.Subscriptions` over the keys present
when the loop starts, in the order of the list.  Go ranges a map in an order
that changes from run to run; every list order of the same entries is one
such run. -/
def publishLoop {σ : Type} (env : Env σ) : List String → Nat → PubLoop σ → Run (PubLoop σ) Unit
  | [], _, s => .done s ()
  | key :: ks, i, s =>
    match publishStep env i key s with
    | .done s1 _ => publishLoop env ks (i + 1) s1
    | .panic s1 msg => .panic s1 msg

/-- Store the topic object reached through `p.Topics[name]` back in the world. -/
def World.putTopic {σ : Type} (w : World σ) (name : String) (s : PubLoop σ) : World σ :=
  { pub := { w.pub with Topics := w.pub.Topics.set name s.topic }
    net := s.net
    log := s.log }

def HTTPPublisher.Publish {σ : Type} (env : Env σ) (w : World σ) (pr : PublishRequest) :
    Run (World σ) (Option PublishResponse × Option GoError) :=
  match w.pub.GetTopic pr.Topic with
  | (_, some err) => .done w (none, some err)
  | (none, none) => .panic w nilDeref
  | (some topic, none) =>
    match pr.GetMessagesBytes env with
    | .error err => .done w (none, some err)
    | .ok msg =>
      let res := List.replicate topic.Subscriptions.length ""
      let s0 : PubLoop σ :=
        { topic := topic, buf := msg, net := w.net, res := res, log := w.log }
      match publishLoop env topic.Subscriptions.keys 0 s0 with
      | .done s _ => .done (w.putTopic pr.Topic s) (some { MessageResults := s.res }, none)
      | .panic s msg => .panic (w.putTopic pr.Topic s) msg

/-- Consecutive `Publish` calls; a panic ends the run. -/
def publishAll {σ : Type} (env : Env σ) :
    World σ → List PublishRequest →
      Run (World σ) (List (Option PublishResponse × Option GoError))
  | w, [] => .done w []
  | w, pr :: prs =>
    match HTTPPublisher.Publish env w pr with
    | .panic w1 msg => .panic w1 msg
    | .done w1 r =>
      match publishAll env w1 prs with
      | .done w2 rs => .done w2 (r :: rs)
      | .panic w2 msg => .panic w2 msg

/-! ### Bundling (topic.go) -/

/-- Value returned by `bundler.NewBundler`, before the caller's assignments. -/
def NewBundler : Bundler :=
  { DelayThreshold := 1000000000, BundleCountThreshold := 10, HandlerLimit := 1 }

/-- Lazy construction of the bundler; `gomaxprocs` is `runtime.GOMAXPROCS(0)`. -/
def Topic.initBundler (gomaxprocs : Int) (t : Topic) : Topic :=
  let noop := t.bundler.isSome
  if noop then t
  else if t.bundler.isSome then t
  else
    let b := NewBundler
    let b := { b with DelayThreshold := t.PublishSettings.DelayThreshold }
    let b := { b with BundleCountThreshold := t.PublishSettings.CountThreshold }
    let b :=
      if t.PublishSettings.NumGoroutines > 0 then
        { b with HandlerLimit := t.PublishSettings.NumGoroutines }
      else
        { b with HandlerLimit := 25 * gomaxprocs }
    { t with bundler := some b }

/-- The call `Topic.Publish`: `addErr` is what `bundler.Add` returns for the
new item.  The returned value is the future handed to the caller. -/
def Topic.Publish (gomaxprocs : Int) (addErr : Option GoError) (t : Topic)
    (msg : Option Message) : Run Topic PublishResult :=
  let r := PublishResult.fresh
  let t1 := t.initBundler gomaxprocs
  match msg with
  | none => .panic t1 nilDeref
  | some _ =>
    match addErr with
    | some err =>
      match r.Set "" (some err) with
      | .done r1 _ => .done t1 r1
      | .panic _ e => .panic t1 e
    | none => .done t1 r

/-- First loop of `publishMessageBundle`: copy each body into the request and
drop the bundle's reference to the message. -/
def collectBodies : List bundledMessage → Run (List bundledMessage) (List (Option Message))
  | [] => .done [] []
  | bm :: rest =>
    match bm.msg with
    | none => .panic (bm :: rest) nilDeref
    | some m =>
      match collectBodies rest with
      | .done rest1 msgs =>
        .done ({ bm with msg := none } :: rest1) (some { Body := m.Body } :: msgs)
      | .panic rest1 e => .panic ({ bm with msg := none } :: rest1) e

/-- Second loop of `publishMessageBundle`, from position `i` on. -/
def setResults (res : Option PublishResponse) (err : Option GoError) :
    Nat → List bundledMessage → Run (List bundledMessage) Unit
  | _, [] => .done [] ()
  | i, bm :: rest =>
    let step : Run PublishResult Unit :=
      match err with
      | some e => bm.res.Set "" (some e)
      | none =>
        match res with
        | none => .panic bm.res nilDeref
        | some resp =>
          match resp.MessageResults.get? i with
          | none => .panic bm.res "index out of range"
          | some s => bm.res.Set s none
    match step with
    | .panic r1 msg => .panic ({ bm with res := r1 } :: rest) msg
    | .done r1 _ =>
      match setResults res err (i + 1) rest with
      | .done rest1 _ => .done ({ bm with res := r1 } :: rest1) ()
      | .panic rest1 msg => .panic ({ bm with res := r1 } :: rest1) msg

/-- The flush handler.  `publish` is the method `t.Publisher.Publish` acting on
a world `ω`; the state is the bundle together with that world. -/
def Topic.publishMessageBundle {ω : Type} (t : Topic)
    (publish : ω → PublishRequest → Run ω (Option PublishResponse × Option GoError))
    (bms : List bundledMessage) (w : ω) : Run (List bundledMessage × ω) Unit :=
  match collectBodies bms with
  | .panic bms1 msg => .panic (bms1, w) msg
  | .done bms1 pbMsgs =>
    match t.Publisher with
    | none => .panic (bms1, w) nilDeref
    | some _ =>
      match publish w { Topic := t.name, Messages := pbMsgs } with
      | .panic w1 msg => .panic (bms1, w1) msg
      | .done w1 (res, err) =>
        match setResults res err 0 bms1 with
        | .done bms2 _ => .done (bms2, w1) ()
        | .panic bms2 msg => .panic (bms2, w1) msg

/-! ### Subscription identity (subscription.go, topic.go) -/

/-- UTF-8 encoding of one code point. -/
def utf8Char (c : Nat) : Bytes :=
  if c < 128 then [c]
  else if c < 2048 then [192 + c / 64, 128 + c % 64]
  else if c < 65536 then [224 + c / 4096, 128 + c / 64 % 64, 128 + c % 64]
  else [240 + c / 262144, 128 + c / 4096 % 64, 128 + c / 64 % 64, 128 + c % 64]

/-- The bytes of a Go string, `[]byte(s)`. -/
def stringBytes (s : String) : Bytes :=
  (s.data.map (fun c => utf8Char c.toNat)).flatten

/-- The function `fromHexChar` of `encoding/hex`: both letter cases are accepted. -/
def hexVal (b : Nat) : Option Nat :=
  if 48 ≤ b ∧ b ≤ 57 then some (b - 48)
  else if 97 ≤ b ∧ b ≤ 102 then some (b - 97 + 10)
  else if 65 ≤ b ∧ b ≤ 70 then some (b - 65 + 10)
  else none

/-- Upper-case hexadecimal digit. -/
def upperHexDigit (n : Nat) : Char :=
  if n < 10 then Char.ofNat (48 + n) else Char.ofNat (55 + n)

/-- Lower-case hexadecimal digit, the alphabet of `hex.EncodeToString`. -/
def lowerHexDigit (n : Nat) : Char :=
  if n < 10 then Char.ofNat (48 + n) else Char.ofNat (87 + n)

/-- The error `hex.ErrLength`. -/
def ErrLength : GoError := "encoding/hex: odd length hex string"

/-- Text of `hex.InvalidByteError(b)`: the byte in the `%#U` format, which
appends the quoted character when it is printable. -/
def InvalidByteError (b : Nat) : GoError :=
  "encoding/hex: invalid byte: U+00" ++
    String.mk [upperHexDigit (b / 16 % 16), upperHexDigit (b % 16)] ++
    (if (32 ≤ b ∧ b < 127) ∨ (161 ≤ b ∧ b ≤ 255 ∧ b ≠ 173) then
      " " ++ String.mk [Char.ofNat 39, Char.ofNat b, Char.ofNat 39]
    else "")

/-- The function `hex.DecodeString` on the bytes of its argument: pairs are
decoded in order and the first bad byte is reported; a dangling last digit is
reported as `ErrLength`. -/
def hexDecode : Bytes → Except GoError Bytes
  | [] => .ok []
  | [a] =>
    match hexVal a with
    | none => .error (InvalidByteError a)
    | some _ => .error ErrLength
  | a :: b :: rest =>
    match hexVal a with
    | none => .error (InvalidByteError a)
    | some x =>
      match hexVal b with
      | none => .error (InvalidByteError b)
      | some y =>
        match hexDecode rest with
        | .ok out => .ok ((x * 16 + y) :: out)
        | .error e => .error e

def hexDecodeString (s : String) : Except GoError Bytes :=
  hexDecode (stringBytes s)

/-- The function `hex.EncodeToString`. -/
def hexEncodeToString (bs : Bytes) : String :=
  String.mk (bs.map (fun b => [lowerHexDigit (b / 16 % 16), lowerHexDigit (b % 16)])).flatten

/-- Values that `MakeHash` hands to `binary.Write`. -/
inductive WireValue where
  | bytes (b : Bytes)
  | int64 (x : Int)
  | uint8 (b : Nat)
deriving DecidableEq, Repr

/-- Little-endian two's-complement encoding of an `int64`. -/
def le64 (x : Int) : Bytes :=
  (List.range 8).map (fun i => (x % 2 ^ 64).toNat / 256 ^ i % 256)

/-- The call `binary.Write(buffer, binary.LittleEndian, value)` on a
`bytes.Buffer`: a byte slice is appended as it is, without a length, an
`int64` as eight bytes and a `byte` as one.  None of them can fail. -/
def binaryWrite (buffer : Bytes) : WireValue → Except GoError Bytes
  | .bytes b => .ok (buffer ++ b)
  | .int64 x => .ok (buffer ++ le64 x)
  | .uint8 b => .ok (buffer ++ [b % 256])

/-- The loop of `MakeHash` over `values`. -/
def writeValues : Bytes → List WireValue → Except GoError Bytes
  | buffer, [] => .ok buffer
  | buffer, v :: vs =>
    match binaryWrite buffer v with
    | .error err => .error err
    | .ok buffer1 => writeValues buffer1 vs

/-- The bytes that `MakeHash` feeds to `crypto.NewHash`. -/
def hashInput (this : Subscription) : Except GoError Bytes :=
  match hexDecodeString this.Address with
  | .error err => .error err
  | .ok addressBytes =>
    match hexDecodeString this.Endpoint with
    | .error err => .error err
    | .ok endpointBytes =>
      writeValues [] [.bytes addressBytes, .bytes endpointBytes, .int64 this.Created]

/-- The method `MakeHash`; `NewHash` is `crypto.NewHash`.  Returns the error
and the receiver as the call leaves it. -/
def Subscription.MakeHash (NewHash : Bytes → Bytes) (this : Subscription) :
    Option GoError × Subscription :=
  match hashInput this with
  | .error err => (some err, this)
  | .ok buffer =>
    let hash := NewHash buffer
    (none, { this with Hash := hexEncodeToString hash })

/-- The constructor `NewSubscription`; `now` is `utils.ToMilliSeconds(time.Now())`. -/
def NewSubscription (NewHash : Bytes → Bytes) (now : Int) (endpoint : String)
    (headers : GoMap String) (address : String) : Option Subscription × Option GoError :=
  let s : Subscription :=
    { Hash := "", Endpoint := endpoint, Headers := headers, Address := address,
      Created := now, ErrCount := 0 }
  match s.MakeHash NewHash with
  | (some err, _) => (none, some err)
  | (none, s1) => (some s1, none)

/-- The method `Topic.Subscribe`: the returned hash and error, the subscription
object as the call leaves it, and the topic. -/
def Topic.Subscribe (NewHash : Bytes → Bytes) (t : Topic) (sub : Subscription) :
    (String × Option GoError) × Subscription × Topic :=
  if sub.Hash = "" then
    match sub.MakeHash NewHash with
    | (some err, sub1) => (("", some err), sub1, t)
    | (none, sub1) =>
      ((sub1.Hash, none), sub1,
        { t with Subscriptions := t.Subscriptions.set sub1.Hash (some sub1) })
  else
    ((sub.Hash, none), sub,
      { t with Subscriptions := t.Subscriptions.set sub.Hash (some sub) })

/-! ### Locking (topic.go, http_publisher.go) -/

/-- State of a topic that several goroutines share. -/
inductive Shared where
  | registry
  | errCount
  | bundler
deriving DecidableEq, Repr

/-- What a method does to `t.mu` and to the shared state, in program order. -/
inductive SyncEvent where
  | rlock
  | runlock
  | lock
  | unlock
  | read (f : Shared)
  | write (f : Shared)
deriving DecidableEq, Repr

/-- Events of `Topic.Unsubscribe`: `RLock`, the map assignment, and the
deferred `RUnlock`. -/
def Topic.UnsubscribeSync : List SyncEvent :=
  [.rlock, .write .registry, .runlock]

/-- Events of `Topic.Subscribe`: nothing is locked when `MakeHash` fails;
otherwise `RLock`, the map assignment, and the deferred `RUnlock`. -/
def Topic.SubscribeSync (NewHash : Bytes → Bytes) (sub : Subscription) : List SyncEvent :=
  if sub.Hash = "" then
    match (sub.MakeHash NewHash).1 with
    | some _ => []
    | none => [.rlock, .write .registry, .runlock]
  else
    [.rlock, .write .registry, .runlock]

/-- Events of one iteration of the delivery loop of `HTTPPublisher.Publish`:
the entry is read from the map without any lock, a failure increments the
counter, and a trip calls `Unsubscribe`. -/
def deliverySync (failed tripped : Bool) : List SyncEvent :=
  [.read .registry] ++
    (if failed then
      [.write .errCount] ++ (if tripped then Topic.UnsubscribeSync else [])
    else [])

/-- Events of `Topic.initBundler`: the check under `RLock`, then, if no
bundler was seen, `Lock`, the second check, the construction, and the deferred
`Unlock`. -/
def Topic.initBundlerSync (t : Topic) : List SyncEvent :=
  [.rlock, .read .bundler, .runlock] ++
    (if t.bundler.isSome then []
    else
      [.lock, .read .bundler] ++ (if t.bundler.isSome then [] else [.write .bundler]) ++
        [.unlock])

/-- Every write in the event sequence happens while the exclusive lock is
held; `readers` and `writer` describe the lock when the sequence starts. -/
def exclusiveWrites : Nat → Bool → List SyncEvent → Bool
  | _, _, [] => true
  | readers, writer, .rlock :: es => exclusiveWrites (readers + 1) writer es
  | readers, writer, .runlock :: es => exclusiveWrites (readers - 1) writer es
  | readers, _, .lock :: es => exclusiveWrites readers true es
  | readers, _, .unlock :: es => exclusiveWrites readers false es
  | readers, writer, .read _ :: es => exclusiveWrites readers writer es
  | readers, writer, .write _ :: es => writer && exclusiveWrites readers writer es

/-! ### Transactions (commons/types/transaction.go) -/

/-- An element of `Params` as JSON shows it. -/
inductive Param where
  | null
  | bool (b : Bool)
  | number (x : Int)
  | string (s : String)
deriving DecidableEq, Repr

/-- A transaction; `Type_` is the field `Type` (a `byte`), and `Params` is
`none` for a nil slice. -/
structure Transaction where
  Hash : String
  Type_ : Nat
  From : String
  To : String
  Value : Int
  Code : String
  Abi : String
  Method : String
  Params : Option (List Param)
  Time : Int
  Signature : String
  Hertz : Int
  FromName : String
  ToName : String
deriving DecidableEq, Repr

/-- The zero value `Transaction{}`. -/
def Transaction.zero : Transaction :=
  { Hash := "", Type_ := 0, From := "", To := "", Value := 0, Code := "", Abi := "",
    Method := "", Params := none, Time := 0, Signature := "", Hertz := 0, FromName := "",
    ToName := "" }

/-- The bytes that `Transaction.NewHash` feeds to `crypto.NewHash`: the
entries of `values`, written one after the other. -/
def txHashInput (this : Transaction) : Except GoError Bytes :=
  match hexDecodeString this.From with
  | .error err => .error err
  | .ok fromBytes =>
    match hexDecodeString this.To with
    | .error err => .error err
    | .ok toBytes =>
      match hexDecodeString this.Code with
      | .error err => .error err
      | .ok codeBytes =>
        writeValues []
          [.uint8 this.Type_, .bytes fromBytes, .bytes toBytes, .int64 this.Value,
            .bytes codeBytes, .bytes (stringBytes this.Abi),
            .bytes (stringBytes this.Method), .int64 this.Time]

/-- The method `Transaction.NewHash`; `NewHash` is `crypto.NewHash`. -/
def Transaction.NewHash (NewHash : Bytes → Bytes) (this : Transaction) :
    String × Option GoError :=
  match txHashInput this with
  | .error err => ("", some err)
  | .ok buffer =>
    let hash := NewHash buffer
    (hexEncodeToString hash, none)

/-- A member of a JSON object as `MarshalJSON` writes it and as
`json.Unmarshal` hands it over in a `map[string]interface{}`.  Numbers are
the integers that the document spells. -/
inductive JsonField where
  | null
  | bool (b : Bool)
  | number (x : Int)
  | string (s : String)
  | array (xs : List Param)
deriving DecidableEq, Repr

/-- The `float64` nearest to an integer (ties to even), as an integer: exact
below 2^53 in absolute value. -/
def float64Round (x : Int) : Int :=
  if x.natAbs < 2 ^ 53 then x
  else
    let e := Nat.log2 x.natAbs - 52
    let q := x.natAbs / 2 ^ e
    let r := x.natAbs % 2 ^ e
    let q1 := if 2 * r > 2 ^ e ∨ (2 * r = 2 ^ e ∧ q % 2 = 1) then q + 1 else q
    (if x < 0 then -1 else 1) * ((q1 * 2 ^ e : Nat) : Int)

/-- The conversion `int64(v)` of an integral `float64`; a value outside the
range gives the smallest `int64`, as on amd64. -/
def int64OfFloat (v : Int) : Int :=
  if -(2 ^ 63) ≤ v ∧ v < 2 ^ 63 then v else -(2 ^ 63)

/-- The conversion `byte(v)` of an integral `float64`: exact for the values a
`byte` holds, which is all that `MarshalJSON` writes for `Type`; for other
values the result depends on the platform and no statement relies on it. -/
def byteOfFloat (v : Int) : Nat := (int64OfFloat v % 256).toNat

/-- Decoding of a member into `interface{}`: every number becomes a `float64`. -/
def decodeField : JsonField → JsonField
  | .number x => .number (float64Round x)
  | .array xs =>
    .array (xs.map (fun p => match p with
      | .number x => .number (float64Round x)
      | q => q))
  | v => v

/-- The call `json.Unmarshal(bytes, &jsonMap)` on a JSON object. -/
def jsonUnmarshalMap (doc : GoMap JsonField) : GoMap JsonField :=
  doc.map (fun e => (e.1, decodeField e.2))

/-- The expression `jsonMap[key]`: nil for an absent key and for JSON null. -/
def jsonIndex (jsonMap : GoMap JsonField) (key : String) : JsonField :=
  (jsonMap.get? key).getD .null

/-- The method `MarshalJSON`, as the JSON object it writes. -/
def Transaction.MarshalJSON (this : Transaction) : GoMap JsonField :=
  [("hash", .string this.Hash),
    ("type", .number this.Type_),
    ("from", .string this.From),
    ("to", .string this.To),
    ("value", .number this.Value),
    ("code", .string this.Code),
    ("abi", .string this.Abi),
    ("method", .string this.Method),
    ("params", match this.Params with
      | none => .null
      | some xs => .array xs),
    ("time", .number this.Time),
    ("signature", .string this.Signature),
    ("hertz", .number this.Hertz),
    ("fromName", .string this.FromName),
    ("toName", .string this.ToName)]

/-- The method `UnmarshalJSON` with receiver `this`, reading the JSON object
`doc`. -/
def Transaction.UnmarshalJSON (this : Transaction) (doc : GoMap JsonField) :
    Except GoError Transaction := do
  let jsonMap := jsonUnmarshalMap doc
  let this ← (match jsonIndex jsonMap "hash" with
    | .null => pure this
    | .string s => pure { this with Hash := s }
    | _ => throw "value for field \x27hash\x27 must be a string")
  let this ← (match jsonIndex jsonMap "type" with
    | .null => pure this
    | .number typ => pure { this with Type_ := byteOfFloat typ }
    | _ => throw "value for field \x27type\x27 must be a number")
  let this ← (match jsonIndex jsonMap "from" with
    | .null => pure this
    | .string s => pure { this with From := s }
    | _ => throw "value for field \x27from\x27 must be a string")
  let this ← (match jsonIndex jsonMap "to" with
    | .null => pure this
    | .string s => pure { this with To := s }
    | _ => throw "value for field \x27to\x27 must be a string")
  let this ← (match jsonIndex jsonMap "value" with
    | .null => pure this
    | .number val => pure { this with Value := int64OfFloat val }
    | _ => throw "value for field \x27value\x27 must be a number")
  let this ← (match jsonIndex jsonMap "code" with
    | .null => pure this
    | .string s => pure { this with Code := s }
    | _ => throw "value for field \x27code\x27 must be a string")
  let this ← (match jsonIndex jsonMap "abi" with
    | .null => pure this
    | .string s => pure { this with Abi := s }
    | _ => throw "value for field \x27abi\x27 must be a string")
  let this ← (match jsonIndex jsonMap "method" with
    | .null => pure this
    | .string s => pure { this with Method := s }
    | _ => throw "value for field \x27method\x27 must be a string")
  let this ← (match jsonIndex jsonMap "params" with
    | .null => pure this
    | .array xs => pure { this with Params := some xs }
    | _ => throw "value for field \x27params\x27 must be an array")
  let this ← (match jsonIndex jsonMap "time" with
    | .null => pure this
    | .number time => pure { this with Time := int64OfFloat time }
    | _ => throw "value for field \x27time\x27 must be a number")
  let this ← (match jsonIndex jsonMap "signature" with
    | .null => pure this
    | .string s => pure { this with Signature := s }
    | _ => throw "value for field \x27signature\x27 must be a string")
  let this ← (match jsonIndex jsonMap "hertz" with
    | .null => pure this
    | _ =>
      match jsonIndex jsonMap "type" with
      | .number hertz => pure { this with Hertz := int64OfFloat hertz }
      | _ => throw "value for field \x27hertz\x27 must be a number")
  let this ← (match jsonIndex jsonMap "fromName" with
    | .null => pure this
    | .string s => pure { this with FromName := s }
    | _ => throw "value for field \x27fromName\x27 must be a string")
  let this ← (match jsonIndex jsonMap "toName" with
    | .null => pure this
    | .string s => pure { this with ToName := s }
    | _ => throw "value for field \x27toName\x27 must be a string")
  return this

/-- The function `ToTransactionFromJson`: `UnmarshalJSON` on a new transaction. -/
def ToTransactionFromJson (payload : GoMap JsonField) : Except GoError Transaction :=
  Transaction.zero.UnmarshalJSON payload

/-! ### Accounts (commons/types/account.go) -/

/-- An account; times are instants as integers and `Balance` is `none` for a
nil `*big.Int`. -/
structure Account where
  Address : String
  PrivateKey : String
  Name : String
  Balance : Option Int
  HertzAvailable : Nat
  TransactionHash : String
  Updated : Int
  Created : Int
  Nonce : Nat
  Root : Bytes
  CodeHash : Bytes
deriving DecidableEq, Repr

def getKey (address : String) : String := "table-account-" ++ address

def Account.Key (this : Account) : String := getKey this.Address

/-- The method `NameKey`; `toLower` is `strings.ToLower`. -/
def Account.NameKey (toLower : String → String) (this : Account) : String :=
  "key-account-name-" ++ toLower this.Name

/-- The content of a `badger.Txn`: keys and values as strings. -/
abbrev Txn := GoMap String

/-- The method `txn.Set` on a writable transaction and a key that is not
empty: it stores the value and returns no error. -/
def Txn.Set (txn : Txn) (key value : String) : Option GoError × Txn :=
  (none, GoMap.set txn key value)

/-- The calls `txn.Get(key)` and `item.Value()`: an absent key gives
`badger.ErrKeyNotFound`. -/
def Txn.Get (txn : Txn) (key : String) : Except GoError String :=
  match GoMap.get? txn key with
  | none => .error "Key not found"
  | some v => .ok v

/-- The method `Persist`; `encode` is `Account.String`. -/
def Account.Persist (toLower : String → String) (encode : Account → String)
    (this : Account) (txn : Txn) : Option GoError × Txn :=
  match Txn.Set txn this.Key (encode this) with
  | (some err, txn1) => (some err, txn1)
  | (none, txn1) =>
    match Txn.Set txn1 (this.NameKey toLower) this.Key with
    | (some err, txn2) => (some err, txn2)
    | (none, txn2) => (none, txn2)

/-- The function `ToAccountByAddress`; `decode` is `ToAccountFromJson`. -/
def ToAccountByAddress (decode : String → Except GoError Account) (txn : Txn)
    (address : String) : Except GoError Account :=
  match Txn.Get txn (getKey address) with
  | .error err => .error err
  | .ok value =>
    match decode value with
    | .error err => .error err
    | .ok account => .ok account

/-- The function `ToAccountByName`. -/
def ToAccountByName (decode : String → Except GoError Account) (txn : Txn)
    (name : String) : Except GoError Account :=
  match Txn.Get txn ("key-account-name-" ++ name) with
  | .error err => .error err
  | .ok value =>
    match ToAccountByAddress decode txn value with
    | .error err => .error err
    | .ok account => .ok account

/-! ### Specification vocabulary -/

/-- A registry entry as `Topic.Subscribe` leaves it and as the delivery loop
needs it: a live subscription stored under its own hash, whose endpoint
`http.NewRequest` accepts. -/
def entryOk {σ : Type} (env : Env σ) (key : String) : Option Subscription → Bool
  | none => false
  | some sub => env.parseURL sub.Endpoint && decide (sub.Hash = key)

/-- Every entry of the registry is a usable subscription. -/
def registryOk {σ : Type} (env : Env σ) (m : GoMap (Option Subscription)) : Prop :=
  m.keys.Nodup ∧ ∀ e ∈ m, entryOk env e.1 e.2 = true

/-- Errors returned by the transport when it is handed the requests in turn,
starting from network state `net`. -/
def transportErrs {σ : Type} (env : Env σ) : σ → List HTTPRequest → List (Option GoError)
  | _, [] => []
  | net, r :: rs => (env.clientDo net r).1.1 :: transportErrs env (env.clientDo net r).2 rs

/-- A bundle item as `Topic.Publish` hands it to the bundler: the message is
there and the future has not been set. -/
def bundledMessage.pending (bm : bundledMessage) : Bool :=
  bm.msg.isSome && decide (bm.res.ready = Chan.opened)

/-- The request the flush handler assembles from a bundle of topic `t`. -/
def bundleRequest (t : Topic) (bms : List bundledMessage) : PublishRequest :=
  { Topic := t.name
    Messages := bms.map (fun bm => bm.msg.map (fun m => { Body := m.Body })) }

/-- Registry entry of a subscription after one delivery that returned `err`,
for a topic with the given error threshold: untouched on success; on failure
the counter is incremented and the entry becomes nil when the threshold is met. -/
def afterDelivery (threshold : Int) (sub : Subscription) : Option GoError → Option Subscription
  | none => some sub
  | some _ =>
    if threshold ≤ wrapInt64 (sub.ErrCount + 1) then none
    else some { sub with ErrCount := wrapInt64 (sub.ErrCount + 1) }

/-- A string is valid hexadecimal when its length is even and every byte is a
hexadecimal digit. -/
def validHex (s : String) : Bool :=
  (stringBytes s).length % 2 == 0 && (stringBytes s).all (fun b => (hexVal b).isSome)

/-- A publisher that also records every request it is called with. -/
def recording {ω : Type}
    (publish : ω → PublishRequest → Run ω (Option PublishResponse × Option GoError)) :
    ω × List PublishRequest → PublishRequest →
      Run (ω × List PublishRequest) (Option PublishResponse × Option GoError) :=
  fun w pr =>
    match publish w.1 pr with
    | .done w1 r => .done (w1, w.2 ++ [pr]) r
    | .panic w1 msg => .panic (w1, w.2 ++ [pr]) msg

/-- Consecutive `Topic.Publish` calls on one topic; before each call the
caller may have replaced `PublishSettings`. -/
def publishMany (gomaxprocs : Int) :
    Topic → List (PublishSettings × Message × Option GoError) → Topic
  | t, [] => t
  | t, (ps, m, addErr) :: rest =>
    publishMany gomaxprocs
      (Topic.Publish gomaxprocs addErr { t with PublishSettings := ps } (some m)).state rest

/-- The failure counter of a live entry can still be incremented without
leaving the `int64` range. -/
def counterBelowMax : Option Subscription → Bool
  | none => true
  | some sub => decide (-(2 ^ 63) ≤ sub.ErrCount) && decide (sub.ErrCount < 2 ^ 63 - 1)

/-! ### A concrete world for evaluating the code -/

/-- Standard base64 alphabet, as character codes. -/
def b64Char (i : Nat) : Nat :=
  if i < 26 then 65 + i
  else if i < 52 then 97 + (i - 26)
  else if i < 62 then 48 + (i - 52)
  else if i = 62 then 43
  else 47

/-- Padded standard base64, the encoding `json.Marshal` uses for `[]byte`. -/
def base64 : Bytes → Bytes
  | a :: b :: c :: rest =>
    [b64Char (a / 4), b64Char (a % 4 * 16 + b / 16), b64Char (b % 16 * 4 + c / 64),
      b64Char (c % 64)] ++ base64 rest
  | [a, b] => [b64Char (a / 4), b64Char (a % 4 * 16 + b / 16), b64Char (b % 16 * 4), 61]
  | [a] => [b64Char (a / 4), b64Char (a % 4 * 16), 61, 61]
  | [] => []

/-- JSON text of one `*Message`: `null` for a nil pointer, otherwise an object
with the base64 body.  The body is a slice that is not nil; a nil `Body` is
written as `null` by `json.Marshal` and is not represented. -/
def jsonMessage : Option Message → Bytes
  | none => [110, 117, 108, 108]
  | some m => [123, 34, 98, 111, 100, 121, 34, 58, 34] ++ base64 m.Body ++ [34, 125]

/-- JSON text of a non-nil `[]*Message`. -/
def jsonMessages (ms : List (Option Message)) : Bytes :=
  [91] ++ ((ms.map jsonMessage).intersperse [44]).flatten ++ [93]

/-- A network without state: endpoints listed in `down` refuse the connection
before any byte of the body is read; every other endpoint accepts the request
after reading the whole body. -/
def sampleEnv (down : List String) : Env Unit :=
  { jsonMarshal := fun ms => .ok (jsonMessages ms)
    parseURL := fun _ => true
    clientDo := fun _ req =>
      if req.url ∈ down then ((some "connection refused", 0), ())
      else ((none, req.body.length), ()) }

def sampleSub (hash endpoint : String) : Subscription :=
  { Hash := hash, Endpoint := endpoint, Headers := [], Address := "", Created := 0,
    ErrCount := 0 }

/-- A publisher holding one topic `name` with the given registry and threshold. -/
def sampleWorld (name : String) (threshold : Int) (subs : GoMap (Option Subscription)) :
    World Unit :=
  let p := (NewHTTPPublisher 1).CreateTopic name |>.2
  let t : Topic :=
    { NewTopic name with
      Publisher := some 1
      PublishSettings := { DefaultPublishSettings with ErrorThreshold := threshold }
      Subscriptions := subs }
  { pub := { p with Topics := p.Topics.set name t }, net := (), log := [] }

/-- The topic object `name` as `CreateTopic` of publisher 1 returns it. -/
def sampleTopic (name : String) : Topic :=
  { NewTopic name with Publisher := some 1 }

/-- A bundle item for a message with the given body, as `Topic.Publish` queues it. -/
def sampleItem (body : Bytes) : bundledMessage :=
  { msg := some { Body := body }, res := PublishResult.fresh }

def hiRequest (name : String) : PublishRequest :=
  { Topic := name, Messages := [some { Body := [104, 105] }] }

/-- Registry of the scenario with three subscriptions. -/
def threeSubs : GoMap (Option Subscription) :=
  [("h1", some (sampleSub "h1" "http://a")), ("h2", some (sampleSub "h2" "http://b")),
    ("h3", some (sampleSub "h3" "http://c"))]

/-- A stand-in for `crypto.NewHash` with a 32-byte output: the low byte of the
input length, repeated. -/
def sampleHash (b : Bytes) : Bytes := List.replicate 32 (b.length % 256)

/-- The function `strings.ToLower` on ASCII text: the letters A to Z are
mapped to a to z. -/
def asciiToLower (s : String) : String :=
  String.mk (s.data.map (fun c =>
    if 65 ≤ c.toNat ∧ c.toNat ≤ 90 then Char.ofNat (c.toNat + 32) else c))

/-- An account with address "ab" and the given name. -/
def sampleAccount (name : String) : Account :=
  { Address := "ab", PrivateKey := "", Name := name, Balance := some 0, HertzAvailable := 0,
    TransactionHash := "", Updated := 0, Created := 0, Nonce := 0, Root := [], CodeHash := [] }

/-- A stand-in for `Account.String` on the sample accounts, which differ in
their name only. -/
def sampleEncode (a : Account) : String := a.Name

/-- A stand-in for `ToAccountFromJson` that undoes `sampleEncode`. -/
def sampleDecode (s : String) : Except GoError Account := .ok (sampleAccount s)

/-- A token transfer of 5 from "ab" to "cd" with type 1 and 7 hertz. -/
def sampleTx : Transaction :=
  { Transaction.zero with
    Type_ := 1, From := "ab", To := "cd", Value := 5, Time := 258, Hertz := 7 }

/-- The registry of the scenario after the second subscription was taken out,
by `Unsubscribe("h2")` or by the circuit breaker. -/
def trippedSubs : GoMap (Option Subscription) :=
  [("h1", some (sampleSub "h1" "http://a")), ("h2", none),
    ("h3", some (sampleSub "h3" "http://c"))]

/-- The topic object stored by `sampleWorld`. -/
def sampleTopicWith (name : String) (threshold : Int) (subs : GoMap (Option Subscription)) :
    Topic :=
  { NewTopic name with
    Publisher := some 1
    PublishSettings := { DefaultPublishSettings with ErrorThreshold := threshold }
    Subscriptions := subs }

/-! ## Map lemmas -/

namespace GoMap

variable {α : Type}

theorem get?_set_same (m : GoMap α) (key : String) (v : α) :
    get? (set m key v) key = some v := by
  induction m with
  | nil => simp [set, get?]
  | cons e m ih =>
    obtain ⟨k, w⟩ := e
    by_cases h : k = key
    · simp [set, get?, h]
    · simp [set, get?, h, ih]

theorem get?_set_other (m : GoMap α) (key key2 : String) (v : α) (h : key ≠ key2) :
    get? (set m key v) key2 = get? m key2 := by
  induction m with
  | nil => simp [set, get?, h]
  | cons e m ih =>
    obtain ⟨k, w⟩ := e
    by_cases hk : k = key
    · subst hk
      simp [set, get?, h]
    · by_cases hk2 : k = key2
      · subst hk2
        simp [set, get?, hk]
      · simp [set, get?, hk, hk2, ih]

theorem contains_set_same (m : GoMap α) (key : String) (v : α) :
    contains (set m key v) key = true := by
  simp [contains, get?_set_same]

theorem contains_set_other (m : GoMap α) (key key2 : String) (v : α) (h : key ≠ key2) :
    contains (set m key v) key2 = contains m key2 := by
  simp [contains, get?_set_other m key key2 v h]

end GoMap

/-! ## Topic registry of the publisher -/

theorem CreateTopic_of_exists (p : HTTPPublisher) (n : String)
    (h : p.TopicExists n = true) :
    p.CreateTopic n = ((none, some TOPIC_EXISTS), p) := by
  unfold HTTPPublisher.CreateTopic
  rw [if_pos h]

theorem CreateTopic_of_absent (p : HTTPPublisher) (n : String)
    (h : p.TopicExists n = false) :
    p.CreateTopic n =
      ((some { NewTopic n with Publisher := some p.addr }, none),
        { p with Topics := p.Topics.set n { NewTopic n with Publisher := some p.addr } }) := by
  unfold HTTPPublisher.CreateTopic
  rw [if_neg (by simp [h])]
  rfl

theorem TopicExists_CreateTopic_same (p : HTTPPublisher) (n : String) :
    (p.CreateTopic n).2.TopicExists n = true := by
  cases h : p.TopicExists n
  · rw [CreateTopic_of_absent p n h]
    exact GoMap.contains_set_same _ _ _
  · rw [CreateTopic_of_exists p n h]
    exact h

theorem TopicExists_CreateTopic_other (p : HTTPPublisher) (n m : String) (h : n ≠ m) :
    (p.CreateTopic n).2.TopicExists m = p.TopicExists m := by
  cases hn : p.TopicExists n
  · rw [CreateTopic_of_absent p n hn]
    exact GoMap.contains_set_other _ _ _ _ h
  · rw [CreateTopic_of_exists p n hn]

theorem get?_CreateTopic_other (p : HTTPPublisher) (n m : String) (h : n ≠ m) :
    (p.CreateTopic n).2.Topics.get? m = p.Topics.get? m := by
  cases hn : p.TopicExists n
  · rw [CreateTopic_of_absent p n hn]
    exact GoMap.get?_set_other _ _ _ _ h
  · rw [CreateTopic_of_exists p n hn]

theorem get?_CreateTopic_of_exists (p : HTTPPublisher) (n m : String)
    (h : p.TopicExists m = true) :
    (p.CreateTopic n).2.Topics.get? m = p.Topics.get? m := by
  by_cases hnm : n = m
  · subst hnm
    rw [CreateTopic_of_exists p n h]
  · exact get?_CreateTopic_other p n m hnm

theorem addr_CreateTopic (p : HTTPPublisher) (n : String) :
    (p.CreateTopic n).2.addr = p.addr := by
  cases hn : p.TopicExists n
  · rw [CreateTopic_of_absent p n hn]
  · rw [CreateTopic_of_exists p n hn]

theorem addr_createTopics (names : List String) (p : HTTPPublisher) :
    (p.createTopics names).addr = p.addr := by
  induction names generalizing p with
  | nil => rfl
  | cons n ns ih => simp [HTTPPublisher.createTopics, ih, addr_CreateTopic]

theorem get?_createTopics_of_exists (names : List String) (p : HTTPPublisher) (m : String)
    (h : p.TopicExists m = true) :
    (p.createTopics names).Topics.get? m = p.Topics.get? m := by
  induction names generalizing p with
  | nil => rfl
  | cons n ns ih =>
    have hex : (p.CreateTopic n).2.TopicExists m = true := by
      by_cases hnm : n = m
      · subst hnm; exact TopicExists_CreateTopic_same p n
      · rw [TopicExists_CreateTopic_other p n m hnm]; exact h
    simp only [HTTPPublisher.createTopics]
    rw [ih _ hex, get?_CreateTopic_of_exists p n m h]

theorem TopicExists_createTopics (names : List String) (p : HTTPPublisher) (m : String) :
    (p.createTopics names).TopicExists m = true ↔ p.TopicExists m = true ∨ m ∈ names := by
  induction names generalizing p with
  | nil => simp [HTTPPublisher.createTopics]
  | cons n ns ih =>
    simp only [HTTPPublisher.createTopics, ih, List.mem_cons]
    by_cases hnm : n = m
    · subst hnm
      simp [TopicExists_CreateTopic_same]
    · rw [TopicExists_CreateTopic_other p n m hnm]
      constructor
      · rintro (h | h)
        · exact Or.inl h
        · exact Or.inr (Or.inr h)
      · rintro (h | h | h)
        · exact Or.inl h
        · exact absurd h.symm hnm
        · exact Or.inr h

theorem createTopics_append (pre post : List String) (p : HTTPPublisher) :
    p.createTopics (pre ++ post) = (p.createTopics pre).createTopics post := by
  induction pre generalizing p with
  | nil => rfl
  | cons n ns ih => simp [HTTPPublisher.createTopics, ih]

theorem first_occurrence (n : String) (l : List String) (h : n ∈ l) :
    ∃ pre post, l = pre ++ n :: post ∧ n ∉ pre := by
  induction l with
  | nil => simp at h
  | cons a l ih =>
    by_cases ha : a = n
    · exact ⟨[], l, by simp [ha], by simp⟩
    · have hl : n ∈ l := by
        rcases List.mem_cons.mp h with h1 | h1
        · exact absurd h1.symm ha
        · exact h1
      obtain ⟨pre, post, hsplit, hpre⟩ := ih hl
      refine ⟨a :: pre, post, by simp [hsplit], ?_⟩
      simp only [List.mem_cons, not_or]
      exact ⟨fun h1 => ha h1.symm, hpre⟩

theorem TopicExists_NewHTTPPublisher (a : Nat) (n : String) :
    (NewHTTPPublisher a).TopicExists n = false := rfl

theorem CreateTopic_err_none (p : HTTPPublisher) (n : String)
    (h : (p.CreateTopic n).1.2 = none) : p.TopicExists n = false := by
  cases hn : p.TopicExists n
  · rfl
  · rw [CreateTopic_of_exists p n hn] at h
    simp at h

theorem GetTopic_of_exists (p : HTTPPublisher) (n : String) (h : p.TopicExists n = true) :
    p.GetTopic n = (p.Topics.get? n, none) := by
  unfold HTTPPublisher.GetTopic
  rw [if_pos h]

theorem GetTopic_of_absent (p : HTTPPublisher) (n : String) (h : p.TopicExists n = false) :
    p.GetTopic n = (none, some TOPIC_NOTFOUND) := by
  unfold HTTPPublisher.GetTopic
  rw [if_neg (by simp [h])]

/-- C1: for every publisher state and topic name `T`, the second of two
consecutive `CreateTopic(T)` calls returns no topic and the error
`TOPIC_EXISTS`, leaves the publisher exactly as the first call left it, and
unless the first call failed as well (the name was already taken) the
registry still maps `T` to the topic the first call returned. -/
theorem C1_CreateTopic_twice (p : HTTPPublisher) (T : String) :
    ((p.CreateTopic T).2.CreateTopic T).1 = (none, some TOPIC_EXISTS) ∧
    ((p.CreateTopic T).2.CreateTopic T).2 = (p.CreateTopic T).2 ∧
    ((p.CreateTopic T).1.1 = none ∨
      ((p.CreateTopic T).2.CreateTopic T).2.Topics.get? T = (p.CreateTopic T).1.1) := by
  have h2 := CreateTopic_of_exists _ T (TopicExists_CreateTopic_same p T)
  refine ⟨by rw [h2], by rw [h2], ?_⟩
  rw [h2]
  cases hn : p.TopicExists T
  · right
    rw [CreateTopic_of_absent p T hn]
    exact GoMap.get?_set_same _ _ _
  · left
    rw [CreateTopic_of_exists p T hn]

/-- C2: `GetTopic(n)` returns a nil error exactly when `TopicExists(n)`; it
then returns the registered topic, and otherwise no topic and
`TOPIC_NOTFOUND`.  Right after a successful `CreateTopic(n)` it returns the
topic that call returned, whose name is `n` and whose `Publisher` is the
calling publisher.  In a publisher built by `NewHTTPPublisher` and a sequence
of `CreateTopic` calls, `TopicExists(n)` holds exactly when an earlier
`CreateTopic(n)` succeeded, and `GetTopic(n)` returns the topic that call
returned. -/
theorem C2_GetTopic (p : HTTPPublisher) (n : String) (a : Nat) (names : List String) :
    ((p.GetTopic n).2 = none ↔ p.TopicExists n = true) ∧
    (p.TopicExists n = false → p.GetTopic n = (none, some TOPIC_NOTFOUND)) ∧
    (p.TopicExists n = true →
      ∃ t, p.Topics.get? n = some t ∧ p.GetTopic n = (some t, none)) ∧
    (∀ t, (p.CreateTopic n).1 = (some t, none) →
      (p.CreateTopic n).2.GetTopic n = (some t, none) ∧
        t.name = n ∧ t.Publisher = some p.addr) ∧
    (((NewHTTPPublisher a).createTopics names).TopicExists n = true ↔
      ∃ pre post, names = pre ++ n :: post ∧
        (((NewHTTPPublisher a).createTopics pre).CreateTopic n).1.2 = none) ∧
    (∀ pre post, names = pre ++ n :: post →
      (((NewHTTPPublisher a).createTopics pre).CreateTopic n).1.2 = none →
      ∃ t, (((NewHTTPPublisher a).createTopics pre).CreateTopic n).1.1 = some t ∧
        ((NewHTTPPublisher a).createTopics names).GetTopic n = (some t, none) ∧
        t.name = n ∧ t.Publisher = some a) := by
  refine ⟨?_, GetTopic_of_absent p n, ?_, ?_, ?_, ?_⟩
  · cases h : p.TopicExists n
    · rw [GetTopic_of_absent p n h]; simp
    · rw [GetTopic_of_exists p n h]; simp
  · intro h
    rw [GetTopic_of_exists p n h]
    have hc : (p.Topics.get? n).isSome = true := h
    obtain ⟨t, ht⟩ := Option.isSome_iff_exists.mp hc
    exact ⟨t, ht, by rw [ht]⟩
  · intro t ht
    cases hn : p.TopicExists n
    · have hex := TopicExists_CreateTopic_same p n
      rw [GetTopic_of_exists _ n hex]
      rw [CreateTopic_of_absent p n hn] at ht ⊢
      simp only [Prod.mk.injEq, Option.some.injEq, and_true] at ht
      subst ht
      refine ⟨?_, rfl, rfl⟩
      simp [GoMap.get?_set_same]
    · rw [CreateTopic_of_exists p n hn] at ht
      simp at ht
  · rw [TopicExists_createTopics, TopicExists_NewHTTPPublisher]
    constructor
    · rintro (h | h)
      · simp at h
      · obtain ⟨pre, post, hsplit, hpre⟩ := first_occurrence n names h
        refine ⟨pre, post, hsplit, ?_⟩
        have hab : ((NewHTTPPublisher a).createTopics pre).TopicExists n = false := by
          cases hx : ((NewHTTPPublisher a).createTopics pre).TopicExists n
          · rfl
          · rcases (TopicExists_createTopics pre _ n).mp hx with h1 | h1
            · simp [TopicExists_NewHTTPPublisher] at h1
            · exact absurd h1 hpre
        rw [CreateTopic_of_absent _ n hab]
    · rintro ⟨pre, post, hsplit, -⟩
      right
      rw [hsplit]
      simp
  · intro pre post hsplit hok
    have hab := CreateTopic_err_none _ n hok
    have hq : (NewHTTPPublisher a).createTopics names =
        (((NewHTTPPublisher a).createTopics pre).CreateTopic n).2.createTopics post := by
      rw [hsplit, createTopics_append]
      rfl
    have hex := TopicExists_CreateTopic_same ((NewHTTPPublisher a).createTopics pre) n
    have hex2 : ((NewHTTPPublisher a).createTopics names).TopicExists n = true := by
      rw [hq, TopicExists_createTopics]
      exact Or.inl hex
    rw [GetTopic_of_exists _ n hex2, hq, get?_createTopics_of_exists post _ n hex]
    rw [CreateTopic_of_absent _ n hab]
    refine ⟨_, rfl, ?_, rfl, ?_⟩
    · simp [GoMap.get?_set_same]
    · simp [addr_createTopics]
      rfl

/-- C2 at a concrete publisher: topics "a" and "b" were created, "a" twice. -/
theorem C2_GetTopic_witness :
    ((NewHTTPPublisher 7).createTopics ["a", "b", "a"]).TopicExists "a" = true ∧
    (∃ t, ((NewHTTPPublisher 7).createTopics ["a", "b", "a"]).Topics.get? "a" = some t ∧
      ((NewHTTPPublisher 7).createTopics ["a", "b", "a"]).GetTopic "a" = (some t, none)) ∧
    ((NewHTTPPublisher 7).createTopics ["a", "b", "a"]).TopicExists "c" = false ∧
    ((NewHTTPPublisher 7).createTopics ["a", "b", "a"]).GetTopic "c" =
      (none, some TOPIC_NOTFOUND) :=
  ⟨by decide,
    (C2_GetTopic ((NewHTTPPublisher 7).createTopics ["a", "b", "a"]) "a" 7 []).2.2.1
      (by decide),
    by decide,
    (C2_GetTopic ((NewHTTPPublisher 7).createTopics ["a", "b", "a"]) "c" 7 []).2.1
      (by decide)⟩

/-! ## The delivery loop -/

theorem GoMap.get?_of_mem {α : Type} (m : GoMap α) (hn : m.keys.Nodup) (k : String) (v : α)
    (h : (k, v) ∈ m) : m.get? k = some v := by
  induction m with
  | nil => simp at h
  | cons e m ih =>
    obtain ⟨k1, v1⟩ := e
    have hn1 : k1 ∉ GoMap.keys m ∧ (GoMap.keys m).Nodup := by
      simpa [GoMap.keys] using hn
    rcases List.mem_cons.mp h with h1 | h1
    · cases h1
      simp [GoMap.get?]
    · have hk : k1 ≠ k := by
        intro hk
        subst hk
        exact hn1.1 (List.mem_map_of_mem Prod.fst h1)
      simp [GoMap.get?, hk, ih hn1.2 h1]

section Loop

variable {σ : Type}

/-- One iteration on a usable entry: the request goes out with the current
buffer as body, the outcome lands in slot `i`, and no other key is touched. -/
theorem publishStep_ok (env : Env σ) (i : Nat) (key : String) (s : PubLoop σ)
    (sub : Subscription) (hget : s.topic.Subscriptions.get? key = some (some sub))
    (hurl : env.parseURL sub.Endpoint = true) (hhash : sub.Hash = key) :
    ∃ s1, publishStep env i key s = .done s1 () ∧
      s1.log = s.log ++
        [{ key := key
           req := { method := "POST", url := sub.Endpoint, headers := sub.Headers,
                    body := s.buf }
           err := (env.clientDo s.net
              { method := "POST", url := sub.Endpoint, headers := sub.Headers,
                body := s.buf }).1.1 }] ∧
      s1.net = (env.clientDo s.net
          { method := "POST", url := sub.Endpoint, headers := sub.Headers,
            body := s.buf }).2 ∧
      s1.res = s.res.set i (outcomeText (env.clientDo s.net
          { method := "POST", url := sub.Endpoint, headers := sub.Headers,
            body := s.buf }).1.1) ∧
      (∀ k, k ≠ key → s1.topic.Subscriptions.get? k = s.topic.Subscriptions.get? k) := by
  unfold publishStep
  rw [hget]
  simp only [hurl, if_true]
  cases herr : (env.clientDo s.net
      { method := "POST", url := sub.Endpoint, headers := sub.Headers, body := s.buf }).1.1 with
  | none =>
    refine ⟨_, rfl, ?_, rfl, ?_, ?_⟩
    · simp
    · simp [outcomeText]
    · intro k _; rfl
  | some e =>
    simp only
    split
    · refine ⟨_, rfl, ?_, rfl, ?_, ?_⟩
      · simp
      · simp [outcomeText]
      · intro k hk
        simp only [Topic.Unsubscribe, hhash]
        rw [GoMap.get?_set_other _ _ _ _ (Ne.symm hk), GoMap.get?_set_other _ _ _ _ (Ne.symm hk)]
    · refine ⟨_, rfl, ?_, rfl, ?_, ?_⟩
      · simp
      · simp [outcomeText]
      · intro k hk
        simp only
        rw [GoMap.get?_set_other _ _ _ _ (Ne.symm hk)]

/-- The loop over keys whose entries are usable: it returns, makes one call
per key in order, and fills the free slots of the response with the outcomes. -/
theorem publishLoop_ok (env : Env σ) (ks : List String) :
    ∀ (pre : List String) (s : PubLoop σ), ks.Nodup →
      (∀ k ∈ ks, ∃ sub, s.topic.Subscriptions.get? k = some (some sub) ∧
        env.parseURL sub.Endpoint = true ∧ sub.Hash = k) →
      s.res = pre ++ List.replicate ks.length "" →
      ∃ s1 atts, publishLoop env ks pre.length s = .done s1 () ∧
        s1.log = s.log ++ atts ∧
        atts.map Attempt.key = ks ∧
        atts.map (fun a => some (some a.req.url)) =
          ks.map (fun k => (s.topic.Subscriptions.get? k).map
            (Option.map Subscription.Endpoint)) ∧
        atts.map Attempt.err = transportErrs env s.net (atts.map Attempt.req) ∧
        s1.res = pre ++ atts.map (fun a => outcomeText a.err) := by
  induction ks with
  | nil =>
    intro pre s _ _ hres
    exact ⟨s, [], rfl, by simp, rfl, rfl, rfl, by simpa using hres⟩
  | cons key ks ih =>
    intro pre s hnd hall hres
    obtain ⟨hkey, hnd1⟩ := List.nodup_cons.mp hnd
    obtain ⟨sub, hget, hurl, hhash⟩ := hall key (List.mem_cons_self _ _)
    obtain ⟨s1, hstep, hlog, hnet, hres1, hframe⟩ :=
      publishStep_ok env pre.length key s sub hget hurl hhash
    have hall1 : ∀ k ∈ ks, ∃ sub, s1.topic.Subscriptions.get? k = some (some sub) ∧
        env.parseURL sub.Endpoint = true ∧ sub.Hash = k := by
      intro k hk
      have hne : k ≠ key := fun h => hkey (h ▸ hk)
      rw [hframe k hne]
      exact hall k (List.mem_cons_of_mem _ hk)
    have hres2 : s1.res = (pre ++ [outcomeText (env.clientDo s.net
        { method := "POST", url := sub.Endpoint, headers := sub.Headers,
          body := s.buf }).1.1]) ++ List.replicate ks.length "" := by
      rw [hres1, hres]
      simp [List.replicate_succ]
    obtain ⟨s2, atts, hloop, hlog2, hkeys, hurls, herrs, hres3⟩ := ih _ s1 hnd1 hall1 hres2
    refine ⟨s2,
      ({ key := key
         req := { method := "POST", url := sub.Endpoint, headers := sub.Headers,
                  body := s.buf }
         err := (env.clientDo s.net
            { method := "POST", url := sub.Endpoint, headers := sub.Headers,
              body := s.buf }).1.1 } : Attempt) :: atts, ?_, ?_, ?_, ?_, ?_, ?_⟩
    · simp only [publishLoop, hstep]
      simpa using hloop
    · rw [hlog2, hlog, List.append_assoc]
      rfl
    · simp [hkeys]
    · simp only [List.map_cons, hget, Option.map_some', hurls]
      congr 1
      apply List.map_congr_left
      intro k hk
      rw [hframe k (fun h => hkey (h ▸ hk))]
    · simp only [List.map_cons, transportErrs, herrs, hnet]
    · rw [hres3]
      simp

theorem GoMap.keys_map_get? {α : Type} (m : GoMap α) (hn : m.keys.Nodup) :
    m.keys.map (fun k => m.get? k) = m.map (fun e => some e.2) := by
  unfold GoMap.keys
  rw [List.map_map]
  apply List.map_congr_left
  intro e he
  exact GoMap.get?_of_mem m hn e.1 e.2 he

/-- Outcomes on a registry without nil entry: on an existing topic whose
registry holds only live entries under their own hash, with endpoints that
parse, and with a request that serializes, `HTTPPublisher.Publish` returns a
response and a nil error; it called the transport once per subscription, in
the order in which the registry is ranged and at that subscription's endpoint,
and the response holds one outcome per call: "Ok" where the transport returned
no error and the error's text where it returned one. -/
theorem Publish_outcomes_of_registryOk (env : Env σ) (w : World σ) (pr : PublishRequest)
    (topic : Topic) (msg : Bytes)
    (ht : w.pub.Topics.get? pr.Topic = some topic)
    (hm : env.jsonMarshal pr.Messages = .ok msg)
    (hr : registryOk env topic.Subscriptions) :
    ∃ w1 res atts,
      HTTPPublisher.Publish env w pr = .done w1 (some res, none) ∧
      w1.log = w.log ++ atts ∧
      atts.map Attempt.key = topic.Subscriptions.keys ∧
      atts.map (fun a => some a.req.url) =
        topic.Subscriptions.map (fun e => e.2.map Subscription.Endpoint) ∧
      atts.map Attempt.err = transportErrs env w.net (atts.map Attempt.req) ∧
      res.MessageResults = atts.map (fun a => outcomeText a.err) ∧
      res.MessageResults.length = topic.Subscriptions.length := by
  obtain ⟨hnd, hent⟩ := hr
  have hex : w.pub.TopicExists pr.Topic = true := by
    simp [HTTPPublisher.TopicExists, GoMap.contains, ht]
  have hall : ∀ k ∈ topic.Subscriptions.keys, ∃ sub,
      topic.Subscriptions.get? k = some (some sub) ∧
        env.parseURL sub.Endpoint = true ∧ sub.Hash = k := by
    intro k hk
    obtain ⟨e, he, hek⟩ := List.mem_map.mp hk
    have hok := hent e he
    have hg := GoMap.get?_of_mem topic.Subscriptions hnd e.1 e.2 he
    rw [hek] at hg hok
    cases hv : e.2 with
    | none => simp [hv, entryOk] at hok
    | some sub =>
      rw [hv] at hg hok
      simp only [entryOk, Bool.and_eq_true, decide_eq_true_eq] at hok
      exact ⟨sub, hg, hok.1, hok.2⟩
  obtain ⟨s1, atts, hloop, hlog, hkeys, hurls, herrs, hres⟩ :=
    publishLoop_ok env topic.Subscriptions.keys []
      { topic := topic, buf := msg, net := w.net,
        res := List.replicate topic.Subscriptions.length "", log := w.log }
      hnd hall (by simp [GoMap.keys])
  have hlen : atts.length = topic.Subscriptions.length := by
    have := congrArg List.length hkeys
    simpa [GoMap.keys] using this
  refine ⟨w.putTopic pr.Topic s1, { MessageResults := s1.res }, atts, ?_, hlog, hkeys, ?_,
    herrs, by simpa using hres, by simp [hres, hlen]⟩
  · unfold HTTPPublisher.Publish
    rw [GetTopic_of_exists _ _ hex, ht]
    simp only [PublishRequest.GetMessagesBytes, hm]
    simp only [List.length_nil] at hloop
    rw [hloop]
  · have h1 := congrArg (List.map (fun (o : Option (Option String)) => o.getD none)) hurls
    simp only [List.map_map] at h1
    have h2 := GoMap.keys_map_get? topic.Subscriptions hnd
    have h3 := congrArg (List.map (fun (o : Option (Option Subscription)) =>
      (o.map (Option.map Subscription.Endpoint)).getD none)) h2
    simp only [List.map_map] at h3
    calc atts.map (fun a => some a.req.url)
        = atts.map ((fun (o : Option (Option String)) => o.getD none) ∘
            fun a => some (some a.req.url)) := by
          apply List.map_congr_left; intro a _; rfl
      _ = _ := h1
      _ = _ := h3
      _ = _ := by apply List.map_congr_left; intro e _; rfl

/-- The scenario of the specification, ranged in the order h1, h2, h3: three
subscriptions and only the second endpoint unreachable. -/
theorem Publish_outcomes_of_registryOk_example :
    (sampleWorld "t" 5
        [("h1", some (sampleSub "h1" "http://a")), ("h2", some (sampleSub "h2" "http://b")),
          ("h3", some (sampleSub "h3" "http://c"))]).pub.Topics.get? (hiRequest "t").Topic =
      some { NewTopic "t" with
        Publisher := some 1
        Subscriptions :=
          [("h1", some (sampleSub "h1" "http://a")), ("h2", some (sampleSub "h2" "http://b")),
            ("h3", some (sampleSub "h3" "http://c"))] } ∧
    (∃ w1 res atts,
      HTTPPublisher.Publish (sampleEnv ["http://b"])
        (sampleWorld "t" 5
          [("h1", some (sampleSub "h1" "http://a")), ("h2", some (sampleSub "h2" "http://b")),
            ("h3", some (sampleSub "h3" "http://c"))]) (hiRequest "t") =
        .done w1 (some res, none) ∧
      w1.log = [] ++ atts ∧
      atts.map Attempt.key = ["h1", "h2", "h3"] ∧
      res.MessageResults = atts.map (fun a => outcomeText a.err) ∧
      res.MessageResults.length = 3) ∧
    (HTTPPublisher.Publish (sampleEnv ["http://b"])
        (sampleWorld "t" 5
          [("h1", some (sampleSub "h1" "http://a")), ("h2", some (sampleSub "h2" "http://b")),
            ("h3", some (sampleSub "h3" "http://c"))]) (hiRequest "t")).returned = true := by
  have h := Publish_outcomes_of_registryOk (sampleEnv ["http://b"])
    (sampleWorld "t" 5
      [("h1", some (sampleSub "h1" "http://a")), ("h2", some (sampleSub "h2" "http://b")),
        ("h3", some (sampleSub "h3" "http://c"))]) (hiRequest "t")
    { NewTopic "t" with
      Publisher := some 1
      Subscriptions :=
        [("h1", some (sampleSub "h1" "http://a")), ("h2", some (sampleSub "h2" "http://b")),
          ("h3", some (sampleSub "h3" "http://c"))] }
    (jsonMessages (hiRequest "t").Messages) (by decide) rfl
    ⟨by decide, by decide⟩
  obtain ⟨w1, res, atts, h1, h2, h3, _, _, h6, h7⟩ := h
  exact ⟨by decide, ⟨w1, res, atts, h1, h2, h3, h6, h7⟩, by rw [h1]; rfl⟩

end Loop

/-! ## Circuit breaker and removal -/

/-- C4 (defect): threshold 2 and one subscription whose endpoint always
refuses.  The first two `Publish` calls return after one attempt each and the
second one trips the breaker; the third call does not complete: it panics on
the nil entry that `Unsubscribe` left in the registry.  The subscription has
received exactly two attempts. -/
theorem C4_later_call_panics :
    (publishAll (sampleEnv ["http://down"])
        (sampleWorld "t" 2 [("h1", some (sampleSub "h1" "http://down"))])
        [hiRequest "t", hiRequest "t"]).returned = true ∧
    (publishAll (sampleEnv ["http://down"])
        (sampleWorld "t" 2 [("h1", some (sampleSub "h1" "http://down"))])
        [hiRequest "t", hiRequest "t"]).state.log.map Attempt.key = ["h1", "h1"] ∧
    ((publishAll (sampleEnv ["http://down"])
        (sampleWorld "t" 2 [("h1", some (sampleSub "h1" "http://down"))])
        [hiRequest "t", hiRequest "t"]).state.pub.Topics.get? "t").map Topic.Subscriptions =
      some [("h1", none)] ∧
    (publishAll (sampleEnv ["http://down"])
        (sampleWorld "t" 2 [("h1", some (sampleSub "h1" "http://down"))])
        [hiRequest "t", hiRequest "t", hiRequest "t"]).returned = false ∧
    (publishAll (sampleEnv ["http://down"])
        (sampleWorld "t" 2 [("h1", some (sampleSub "h1" "http://down"))])
        [hiRequest "t", hiRequest "t", hiRequest "t"]).state.log.map Attempt.key =
      ["h1", "h1"] := by
  decide

/-- C5 (defect): after `Unsubscribe("h1")` on a topic holding "h1" and "h2",
"h1" is still a key, the registry still has two entries, the entry under "h1"
is nil, and the next `Publish` visits it and panics before any delivery. -/
theorem C5_Unsubscribe_leaves_nil_entry :
    ((NewTopic "t").Unsubscribe "h1").2.Subscriptions = [("h1", none)] ∧
    ({ NewTopic "t" with
        Subscriptions :=
          [("h1", some (sampleSub "h1" "http://a")),
            ("h2", some (sampleSub "h2" "http://b"))] }.Unsubscribe "h1").2.Subscriptions =
      [("h1", none), ("h2", some (sampleSub "h2" "http://b"))] ∧
    ({ NewTopic "t" with
        Subscriptions :=
          [("h1", some (sampleSub "h1" "http://a")),
            ("h2", some (sampleSub "h2" "http://b"))] }.Unsubscribe
              "h1").2.Subscriptions.contains "h1" = true ∧
    ({ NewTopic "t" with
        Subscriptions :=
          [("h1", some (sampleSub "h1" "http://a")),
            ("h2", some (sampleSub "h2" "http://b"))] }.Unsubscribe
              "h1").2.Subscriptions.length = 2 ∧
    HTTPPublisher.Publish (sampleEnv [])
        (sampleWorld "t" 5
          ({ NewTopic "t" with
            Subscriptions :=
              [("h1", some (sampleSub "h1" "http://a")),
                ("h2", some (sampleSub "h2" "http://b"))] }.Unsubscribe
                  "h1").2.Subscriptions)
        (hiRequest "t") =
      .panic
        (sampleWorld "t" 5 [("h1", none), ("h2", some (sampleSub "h2" "http://b"))])
        nilDeref := by
  decide

/-- C6 (defect): two reachable subscriptions and one message "hi".  The first
request carries the serialized messages; the transport drains the shared
buffer while sending it, so the second request carries an empty body. -/
theorem C6_second_body_empty :
    (hiRequest "t").GetMessagesBytes (sampleEnv []) =
      .ok [91, 123, 34, 98, 111, 100, 121, 34, 58, 34, 97, 71, 107, 61, 34, 125, 93] ∧
    (HTTPPublisher.Publish (sampleEnv [])
        (sampleWorld "t" 5
          [("h1", some (sampleSub "h1" "http://a")), ("h2", some (sampleSub "h2" "http://b"))])
        (hiRequest "t")).returned = true ∧
    (HTTPPublisher.Publish (sampleEnv [])
        (sampleWorld "t" 5
          [("h1", some (sampleSub "h1" "http://a")), ("h2", some (sampleSub "h2" "http://b"))])
        (hiRequest "t")).state.log.map (fun a => (a.key, a.req.method, a.req.body)) =
      [("h1", "POST",
          [91, 123, 34, 98, 111, 100, 121, 34, 58, 34, 97, 71, 107, 61, 34, 125, 93]),
        ("h2", "POST", [])] :=
  ⟨rfl, by decide, by decide⟩

/-! ## Futures and the flush handler -/

theorem Set_of_opened (r : PublishResult) (result : String) (err : Option GoError)
    (h : r.ready = Chan.opened) :
    r.Set result err = .done { ready := Chan.closed, result := result, err := err } () := by
  unfold PublishResult.Set
  simp [h, Chan.close]

theorem Set_of_closed (r : PublishResult) (result : String) (err : Option GoError)
    (h : r.ready = Chan.closed) :
    r.Set result err =
      .panic { ready := Chan.closed, result := result, err := err }
        "close of closed channel" := by
  unfold PublishResult.Set
  simp [h, Chan.close]

theorem collectBodies_pending (bms : List bundledMessage)
    (hb : ∀ bm ∈ bms, bm.pending = true) :
    collectBodies bms =
      .done (bms.map (fun bm => { bm with msg := none }))
        (bms.map (fun bm => bm.msg.map (fun m => { Body := m.Body }))) := by
  induction bms with
  | nil => rfl
  | cons bm rest ih =>
    have h1 := hb bm (List.mem_cons_self _ _)
    have h2 := ih (fun b hb1 => hb b (List.mem_cons_of_mem _ hb1))
    simp only [bundledMessage.pending, Bool.and_eq_true] at h1
    obtain ⟨m, hm⟩ := Option.isSome_iff_exists.mp h1.1
    simp [collectBodies, hm, h2]

theorem setResults_err (res : Option PublishResponse) (e : GoError)
    (bms : List bundledMessage) (hb : ∀ bm ∈ bms, bm.res.ready = Chan.opened) (i : Nat) :
    setResults res (some e) i bms =
      .done (bms.map (fun bm =>
        { bm with res := { ready := Chan.closed, result := "", err := some e } })) () := by
  induction bms generalizing i with
  | nil => rfl
  | cons bm rest ih =>
    have h1 := hb bm (List.mem_cons_self _ _)
    have h2 := ih (fun b hb1 => hb b (List.mem_cons_of_mem _ hb1)) (i + 1)
    simp [setResults, Set_of_opened _ _ _ h1, h2]

/-- C7 (defect): the response has one slot per subscription but the handler
reads one slot per message.  On a new topic without subscriptions a bundle of
one message makes `Publish` succeed with an empty response, and the handler
panics at `res.MessageResults[0]`, leaving the future unset.  With one
subscription and two messages the first future is set and the handler panics
at index 1, leaving the second future unset. -/
theorem C7_index_out_of_range :
    HTTPPublisher.Publish (sampleEnv []) (sampleWorld "t" 5 [])
        (bundleRequest (sampleTopic "t") [sampleItem [104, 105]]) =
      .done (sampleWorld "t" 5 []) (some { MessageResults := [] }, none) ∧
    (sampleTopic "t").publishMessageBundle (HTTPPublisher.Publish (sampleEnv []))
        [sampleItem [104, 105]] (sampleWorld "t" 5 []) =
      .panic ([{ msg := none, res := PublishResult.fresh }], sampleWorld "t" 5 [])
        "index out of range" ∧
    ((sampleTopic "t").publishMessageBundle (HTTPPublisher.Publish (sampleEnv []))
        [sampleItem [104], sampleItem [105]]
        (sampleWorld "t" 5 [("h1", some (sampleSub "h1" "http://a"))])).returned = false ∧
    ((sampleTopic "t").publishMessageBundle (HTTPPublisher.Publish (sampleEnv []))
        [sampleItem [104], sampleItem [105]]
        (sampleWorld "t" 5 [("h1", some (sampleSub "h1" "http://a"))])).state.1.map
          (fun bm => (bm.res.ready, bm.res.Get)) =
      [(Chan.closed, ("Ok", none)), (Chan.opened, ("", none))] := by
  decide

/-- C8: when the handler is given a bundle of pending items and the `Publish`
call of the topic's publisher returns the error `e`, the handler returns, and
every future of the bundle is ready and `Get` on it yields `("", e)`. -/
theorem C8_publish_error_propagates {ω : Type} (t : Topic)
    (publish : ω → PublishRequest → Run ω (Option PublishResponse × Option GoError))
    (bms : List bundledMessage) (w w1 : ω) (res : Option PublishResponse) (e : GoError)
    (hp : t.Publisher.isSome = true)
    (hb : ∀ bm ∈ bms, bm.pending = true)
    (hcall : publish w (bundleRequest t bms) = .done w1 (res, some e)) :
    ∃ bms1, t.publishMessageBundle publish bms w = .done (bms1, w1) () ∧
      bms1.length = bms.length ∧
      ∀ bm ∈ bms1, bm.res.Ready.observable = true ∧ bm.res.Get = ("", some e) := by
  obtain ⟨a, ha⟩ := Option.isSome_iff_exists.mp hp
  have hopen : ∀ bm ∈ bms.map (fun bm => ({ bm with msg := none } : bundledMessage)),
      bm.res.ready = Chan.opened := by
    intro bm hbm
    obtain ⟨b, hb1, rfl⟩ := List.mem_map.mp hbm
    have := hb b hb1
    simp only [bundledMessage.pending, Bool.and_eq_true, decide_eq_true_eq] at this
    exact this.2
  refine ⟨(bms.map (fun bm => ({ bm with msg := none } : bundledMessage))).map (fun bm =>
    { bm with res := { ready := Chan.closed, result := "", err := some e } }), ?_, ?_, ?_⟩
  · unfold Topic.publishMessageBundle
    rw [collectBodies_pending bms hb]
    simp only [ha]
    unfold bundleRequest at hcall
    rw [hcall]
    simp only [setResults_err res e _ hopen 0]
  · simp
  · intro bm hbm
    simp only [List.map_map, List.mem_map, Function.comp] at hbm
    obtain ⟨b, _, rfl⟩ := hbm
    exact ⟨rfl, rfl⟩

/-- C8 with the HTTP publisher: the topic "ghost" is not registered, `Publish`
fails with `TOPIC_NOTFOUND`, and both futures of the bundle receive it. -/
theorem C8_publish_error_propagates_witness :
    (∀ bm ∈ [sampleItem [104], sampleItem [105]], bm.pending = true) ∧
    HTTPPublisher.Publish (sampleEnv []) (sampleWorld "t" 5 [])
        (bundleRequest (sampleTopic "ghost") [sampleItem [104], sampleItem [105]]) =
      .done (sampleWorld "t" 5 []) (none, some TOPIC_NOTFOUND) ∧
    ∃ bms1, (sampleTopic "ghost").publishMessageBundle (HTTPPublisher.Publish (sampleEnv []))
        [sampleItem [104], sampleItem [105]] (sampleWorld "t" 5 []) =
        .done (bms1, sampleWorld "t" 5 []) () ∧
      bms1.length = [sampleItem [104], sampleItem [105]].length ∧
      ∀ bm ∈ bms1, bm.res.Ready.observable = true ∧ bm.res.Get = ("", some TOPIC_NOTFOUND) :=
  ⟨by decide, by decide,
    C8_publish_error_propagates (sampleTopic "ghost") (HTTPPublisher.Publish (sampleEnv []))
      [sampleItem [104], sampleItem [105]] (sampleWorld "t" 5 []) (sampleWorld "t" 5 []) none
      TOPIC_NOTFOUND (by decide) (by decide) (by decide)⟩

/-- C9: the future that `Topic.Publish` creates and queues is not ready; for
every pair, `Set(result, err)` on it returns, makes it ready, and `Get` then
yields exactly `(result, err)`.  When `bundler.Add` refuses the item,
`Topic.Publish` itself has called `Set("", err)` and the returned future is
ready with exactly that pair. -/
theorem C9_Set_then_Get (gomaxprocs : Int) (t : Topic) (m : Message) (result : String)
    (err : Option GoError) (addErr : GoError) :
    PublishResult.fresh.Ready.observable = false ∧
    (∃ t1, Topic.Publish gomaxprocs none t (some m) = .done t1 PublishResult.fresh) ∧
    (∃ r1, PublishResult.fresh.Set result err = .done r1 () ∧
      r1.Ready.observable = true ∧ r1.Get = (result, err)) ∧
    (∃ t1 r, Topic.Publish gomaxprocs (some addErr) t (some m) = .done t1 r ∧
      r.Ready.observable = true ∧ r.Get = ("", some addErr)) := by
  refine ⟨rfl, ⟨_, rfl⟩, ⟨_, Set_of_opened _ _ _ rfl, rfl, rfl⟩, ?_⟩
  refine ⟨t.initBundler gomaxprocs,
    { ready := Chan.closed, result := "", err := some addErr }, ?_, rfl, rfl⟩
  unfold Topic.Publish
  simp only [Set_of_opened PublishResult.fresh "" (some addErr) rfl]

/-- C10, as stated, fails: the second `Set` is rejected by a panic, but `Get`
no longer returns the first pair afterwards. -/
theorem C10_counterexample :
    ∃ r1, PublishResult.fresh.Set "first" none = .done r1 () ∧
      ¬ ((r1.Set "second" (some "late")).returned = false ∧
          (r1.Set "second" (some "late")).state.Get = ("first", none)) :=
  ⟨_, Set_of_opened _ _ _ rfl, by decide⟩

/-- C10 (amended): on a future whose `Set` has already been called (its ready
channel is closed), a second `Set(result2, err2)` does not return: it panics
with "close of closed channel".  The pair has been overwritten by then, so
`Get` yields `(result2, err2)`, and the future stays ready. -/
theorem C10_second_Set_panics (r : PublishResult) (result2 : String)
    (err2 : Option GoError) (h : r.ready = Chan.closed) :
    (r.Set result2 err2).returned = false ∧
    r.Set result2 err2 =
      .panic { ready := Chan.closed, result := result2, err := err2 }
        "close of closed channel" ∧
    (r.Set result2 err2).state.Get = (result2, err2) ∧
    (r.Set result2 err2).state.Ready.observable = true := by
  rw [Set_of_closed r result2 err2 h]
  exact ⟨rfl, rfl, rfl, rfl⟩

/-- C10 (amended) on the future left by `Set("first", nil)`. -/
theorem C10_second_Set_panics_witness :
    ({ ready := Chan.closed, result := "first", err := none } : PublishResult).ready =
      Chan.closed ∧
    (({ ready := Chan.closed, result := "first", err := none } : PublishResult).Set
        "second" (some "late")).state.Get = ("second", some "late") :=
  ⟨rfl, (C10_second_Set_panics { ready := Chan.closed, result := "first", err := none }
    "second" (some "late") rfl).2.2.1⟩

/-! ## Effect of one publish call on the registry -/

theorem GoMap.keys_set_of_get? {α : Type} (m : GoMap α) (key : String) (v w : α)
    (h : m.get? key = some w) : (m.set key v).keys = m.keys := by
  induction m with
  | nil => simp [GoMap.get?] at h
  | cons e m ih =>
    obtain ⟨k, u⟩ := e
    by_cases hk : k = key
    · simp [GoMap.set, GoMap.keys, hk]
    · have h1 : GoMap.get? m key = some w := by simpa [GoMap.get?, hk] using h
      have := ih h1
      simp only [GoMap.keys] at this
      simp [GoMap.set, GoMap.keys, hk, this]

section Registry

variable {σ : Type}

/-- One iteration on a usable entry, with its effect on the topic: the entry
under `key` becomes `afterDelivery`, every other entry and every other field
of the topic stays as it was. -/
theorem publishStep_topic (env : Env σ) (i : Nat) (key : String) (s : PubLoop σ)
    (sub : Subscription) (hget : s.topic.Subscriptions.get? key = some (some sub))
    (hurl : env.parseURL sub.Endpoint = true) (hhash : sub.Hash = key) :
    ∃ s1, publishStep env i key s = .done s1 () ∧
      s1.log = s.log ++
        [{ key := key
           req := { method := "POST", url := sub.Endpoint, headers := sub.Headers,
                    body := s.buf }
           err := (env.clientDo s.net
              { method := "POST", url := sub.Endpoint, headers := sub.Headers,
                body := s.buf }).1.1 }] ∧
      s1.res = s.res.set i (outcomeText (env.clientDo s.net
          { method := "POST", url := sub.Endpoint, headers := sub.Headers,
            body := s.buf }).1.1) ∧
      s1.topic.Subscriptions.get? key =
        some (afterDelivery s.topic.PublishSettings.ErrorThreshold sub
          (env.clientDo s.net
            { method := "POST", url := sub.Endpoint, headers := sub.Headers,
              body := s.buf }).1.1) ∧
      (∀ k, k ≠ key → s1.topic.Subscriptions.get? k = s.topic.Subscriptions.get? k) ∧
      s1.topic.Subscriptions.keys = s.topic.Subscriptions.keys ∧
      s1.topic.PublishSettings = s.topic.PublishSettings ∧
      s1.topic.name = s.topic.name ∧ s1.topic.Publisher = s.topic.Publisher ∧
      s1.topic.bundler = s.topic.bundler := by
  unfold publishStep
  rw [hget]
  simp only [hurl, if_true]
  cases herr : (env.clientDo s.net
      { method := "POST", url := sub.Endpoint, headers := sub.Headers, body := s.buf }).1.1 with
  | none =>
    refine ⟨_, rfl, ?_, ?_, ?_, ?_, rfl, rfl, rfl, rfl, rfl⟩
    · simp
    · simp [outcomeText]
    · simpa [afterDelivery] using hget
    · intro k _; rfl
  | some e =>
    have hk1 : (s.topic.Subscriptions.set key
        (some { sub with ErrCount := wrapInt64 (sub.ErrCount + 1) })).keys =
        s.topic.Subscriptions.keys := GoMap.keys_set_of_get? _ _ _ _ hget
    simp only
    split
    · rename_i hthr
      refine ⟨_, rfl, ?_, ?_, ?_, ?_, ?_, rfl, rfl, rfl, rfl⟩
      · simp
      · simp [outcomeText]
      · simp only [Topic.Unsubscribe, hhash, GoMap.get?_set_same, afterDelivery]
        rw [if_pos hthr]
      · intro k hk
        simp only [Topic.Unsubscribe, hhash]
        rw [GoMap.get?_set_other _ _ _ _ (Ne.symm hk), GoMap.get?_set_other _ _ _ _ (Ne.symm hk)]
      · simp only [Topic.Unsubscribe, hhash]
        rw [GoMap.keys_set_of_get? _ key none _ (GoMap.get?_set_same _ _ _)]
        exact GoMap.keys_set_of_get? _ _ _ _ hget
    · rename_i hthr
      refine ⟨_, rfl, ?_, ?_, ?_, ?_, hk1, rfl, rfl, rfl, rfl⟩
      · simp
      · simp [outcomeText]
      · simp only [GoMap.get?_set_same, afterDelivery]
        rw [if_neg hthr]
      · intro k hk
        simp only
        rw [GoMap.get?_set_other _ _ _ _ (Ne.symm hk)]

/-- The loop over usable entries, with its effect on the topic. -/
theorem publishLoop_topic (env : Env σ) (ks : List String) :
    ∀ (pre : List String) (s : PubLoop σ), ks.Nodup →
      (∀ k ∈ ks, ∃ sub, s.topic.Subscriptions.get? k = some (some sub) ∧
        env.parseURL sub.Endpoint = true ∧ sub.Hash = k) →
      s.res = pre ++ List.replicate ks.length "" →
      ∃ s1 atts, publishLoop env ks pre.length s = .done s1 () ∧
        s1.log = s.log ++ atts ∧
        atts.map Attempt.key = ks ∧
        s1.res = pre ++ atts.map (fun a => outcomeText a.err) ∧
        (∀ a ∈ atts, ∃ sub, s.topic.Subscriptions.get? a.key = some (some sub) ∧
          a.req.url = sub.Endpoint ∧
          s1.topic.Subscriptions.get? a.key =
            some (afterDelivery s.topic.PublishSettings.ErrorThreshold sub a.err)) ∧
        (∀ k, k ∉ ks → s1.topic.Subscriptions.get? k = s.topic.Subscriptions.get? k) ∧
        s1.topic.Subscriptions.keys = s.topic.Subscriptions.keys ∧
        s1.topic.PublishSettings = s.topic.PublishSettings ∧
        s1.topic.name = s.topic.name ∧ s1.topic.Publisher = s.topic.Publisher ∧
        s1.topic.bundler = s.topic.bundler := by
  induction ks with
  | nil =>
    intro pre s _ _ hres
    exact ⟨s, [], rfl, by simp, rfl, by simpa using hres, by simp, fun _ _ => rfl, rfl, rfl,
      rfl, rfl, rfl⟩
  | cons key ks ih =>
    intro pre s hnd hall hres
    obtain ⟨hkey, hnd1⟩ := List.nodup_cons.mp hnd
    obtain ⟨sub, hget, hurl, hhash⟩ := hall key (List.mem_cons_self _ _)
    obtain ⟨s1, hstep, hlog, hres1, hent, hframe, hkeys1, hps1, hname1, hpub1, hbun1⟩ :=
      publishStep_topic env pre.length key s sub hget hurl hhash
    have hall1 : ∀ k ∈ ks, ∃ sub, s1.topic.Subscriptions.get? k = some (some sub) ∧
        env.parseURL sub.Endpoint = true ∧ sub.Hash = k := by
      intro k hk
      have hne : k ≠ key := fun h => hkey (h ▸ hk)
      rw [hframe k hne]
      exact hall k (List.mem_cons_of_mem _ hk)
    have hres2 : s1.res = (pre ++ [outcomeText (env.clientDo s.net
        { method := "POST", url := sub.Endpoint, headers := sub.Headers,
          body := s.buf }).1.1]) ++ List.replicate ks.length "" := by
      rw [hres1, hres]
      simp [List.replicate_succ]
    obtain ⟨s2, atts, hloop, hlog2, hkeys, hres3, hents, hframe2, hkeys2, hps2, hname2, hpub2,
      hbun2⟩ := ih _ s1 hnd1 hall1 hres2
    refine ⟨s2,
      ({ key := key
         req := { method := "POST", url := sub.Endpoint, headers := sub.Headers,
                  body := s.buf }
         err := (env.clientDo s.net
            { method := "POST", url := sub.Endpoint, headers := sub.Headers,
              body := s.buf }).1.1 } : Attempt) :: atts, ?_, ?_, ?_, ?_, ?_, ?_, ?_, ?_, ?_, ?_,
      ?_⟩
    · simp only [publishLoop, hstep]
      simpa using hloop
    · rw [hlog2, hlog, List.append_assoc]
      rfl
    · simp [hkeys]
    · rw [hres3]
      simp
    · intro a ha
      rcases List.mem_cons.mp ha with h1 | h1
      · subst h1
        exact ⟨sub, hget, rfl, by rw [hframe2 key hkey, hent]⟩
      · obtain ⟨sub2, hg2, hu2, he2⟩ := hents a h1
        have hak : a.key ∈ ks := by
          rw [← hkeys]
          exact List.mem_map_of_mem Attempt.key h1
        have hne : a.key ≠ key := fun h => hkey (h ▸ hak)
        rw [hframe a.key hne] at hg2
        rw [hps1] at he2
        exact ⟨sub2, hg2, hu2, he2⟩
    · intro k hk
      have hk1 : k ≠ key := fun h => hk (h ▸ List.mem_cons_self _ _)
      have hk2 : k ∉ ks := fun h => hk (List.mem_cons_of_mem _ h)
      rw [hframe2 k hk2, hframe k hk1]
    · rw [hkeys2, hkeys1]
    · rw [hps2, hps1]
    · rw [hname2, hname1]
    · rw [hpub2, hpub1]
    · rw [hbun2, hbun1]

theorem registryOk_entries (env : Env σ) (m : GoMap (Option Subscription))
    (hr : registryOk env m) :
    ∀ k ∈ m.keys, ∃ sub, m.get? k = some (some sub) ∧
      env.parseURL sub.Endpoint = true ∧ sub.Hash = k := by
  obtain ⟨hnd, hent⟩ := hr
  intro k hk
  obtain ⟨e, he, hek⟩ := List.mem_map.mp hk
  have hok := hent e he
  have hg := GoMap.get?_of_mem m hnd e.1 e.2 he
  rw [hek] at hg hok
  cases hv : e.2 with
  | none => simp [hv, entryOk] at hok
  | some sub =>
    rw [hv] at hg hok
    simp only [entryOk, Bool.and_eq_true, decide_eq_true_eq] at hok
    exact ⟨sub, hg, hok.1, hok.2⟩

/-- A publish call on a registered topic with a usable registry: it returns a
response, calls the transport once per key in registry order, and leaves each
entry as `afterDelivery` of its own outcome. -/
theorem Publish_registry (env : Env σ) (w : World σ) (pr : PublishRequest)
    (topic : Topic) (msg : Bytes)
    (ht : w.pub.Topics.get? pr.Topic = some topic)
    (hm : env.jsonMarshal pr.Messages = .ok msg)
    (hr : registryOk env topic.Subscriptions) :
    ∃ w1 res atts topic1,
      HTTPPublisher.Publish env w pr = .done w1 (some res, none) ∧
      w1.log = w.log ++ atts ∧
      atts.map Attempt.key = topic.Subscriptions.keys ∧
      res.MessageResults = atts.map (fun a => outcomeText a.err) ∧
      w1.pub.Topics.get? pr.Topic = some topic1 ∧
      (∀ n, n ≠ pr.Topic → w1.pub.Topics.get? n = w.pub.Topics.get? n) ∧
      (∀ a ∈ atts, ∃ sub, topic.Subscriptions.get? a.key = some (some sub) ∧
        a.req.url = sub.Endpoint ∧
        topic1.Subscriptions.get? a.key =
          some (afterDelivery topic.PublishSettings.ErrorThreshold sub a.err)) ∧
      topic1.Subscriptions.keys = topic.Subscriptions.keys ∧
      topic1.PublishSettings = topic.PublishSettings ∧
      topic1.name = topic.name ∧ topic1.Publisher = topic.Publisher ∧
      topic1.bundler = topic.bundler := by
  have hex : w.pub.TopicExists pr.Topic = true := by
    simp [HTTPPublisher.TopicExists, GoMap.contains, ht]
  obtain ⟨s1, atts, hloop, hlog, hkeys, hres, hents, -, hkeys1, hps, hname, hpub, hbun⟩ :=
    publishLoop_topic env topic.Subscriptions.keys []
      { topic := topic, buf := msg, net := w.net,
        res := List.replicate topic.Subscriptions.length "", log := w.log }
      hr.1 (registryOk_entries env _ hr) (by simp [GoMap.keys])
  refine ⟨w.putTopic pr.Topic s1, { MessageResults := s1.res }, atts, s1.topic, ?_, hlog, hkeys,
    by simpa using hres, ?_, ?_, hents, hkeys1, hps, hname, hpub, hbun⟩
  · unfold HTTPPublisher.Publish
    rw [GetTopic_of_exists _ _ hex, ht]
    simp only [PublishRequest.GetMessagesBytes, hm]
    simp only [List.length_nil] at hloop
    rw [hloop]
  · simp [World.putTopic, GoMap.get?_set_same]
  · intro n hn
    simp only [World.putTopic]
    rw [GoMap.get?_set_other _ _ _ _ (Ne.symm hn)]

theorem wrapInt64_succ (x : Int) (h1 : -(2 ^ 63) ≤ x) (h2 : x < 2 ^ 63 - 1) :
    wrapInt64 (x + 1) = x + 1 := by
  unfold wrapInt64
  omega

/-- C11: in one `Publish` call on a registered topic with a usable registry
whose counters are below the `int64` maximum, every subscription's entry
changes according to its own delivery only.  After a successful delivery the
entry is exactly what it was (no reset).  After a failed delivery the entry is
the same subscription with `ErrCount` larger by exactly 1 and `Endpoint`,
`Headers`, `Address`, `Hash` unchanged, unless that count reached the
threshold, in which case the entry is nil.  Within one delivery no entry under
another key changes. -/
theorem C11_ErrCount_changes (env : Env σ) (w : World σ) (pr : PublishRequest)
    (topic : Topic) (msg : Bytes)
    (ht : w.pub.Topics.get? pr.Topic = some topic)
    (hm : env.jsonMarshal pr.Messages = .ok msg)
    (hr : registryOk env topic.Subscriptions)
    (hrange : ∀ e ∈ topic.Subscriptions, counterBelowMax e.2 = true) :
    (∃ w1 res atts topic1,
      HTTPPublisher.Publish env w pr = .done w1 (some res, none) ∧
      w1.log = w.log ++ atts ∧
      atts.map Attempt.key = topic.Subscriptions.keys ∧
      w1.pub.Topics.get? pr.Topic = some topic1 ∧
      ∀ a ∈ atts, ∃ sub, topic.Subscriptions.get? a.key = some (some sub) ∧
        (a.err = none → topic1.Subscriptions.get? a.key = some (some sub)) ∧
        (a.err ≠ none →
          topic1.Subscriptions.get? a.key =
              some (some { sub with ErrCount := sub.ErrCount + 1 }) ∨
            (topic.PublishSettings.ErrorThreshold ≤ sub.ErrCount + 1 ∧
              topic1.Subscriptions.get? a.key = some none))) ∧
    (∀ (i : Nat) (key : String) (s : PubLoop σ) (sub : Subscription),
      s.topic.Subscriptions.get? key = some (some sub) →
      env.parseURL sub.Endpoint = true → sub.Hash = key →
      ∀ k, k ≠ key →
        (publishStep env i key s).state.topic.Subscriptions.get? k =
          s.topic.Subscriptions.get? k) := by
  constructor
  · obtain ⟨w1, res, atts, topic1, hpub, hlog, hkeys, -, hget1, -, hents, -⟩ :=
      Publish_registry env w pr topic msg ht hm hr
    refine ⟨w1, res, atts, topic1, hpub, hlog, hkeys, hget1, ?_⟩
    intro a ha
    obtain ⟨sub, hg, -, he⟩ := hents a ha
    have hmem : (a.key, some sub) ∈ topic.Subscriptions := by
      have hk : a.key ∈ topic.Subscriptions.keys := by
        rw [← hkeys]; exact List.mem_map_of_mem Attempt.key ha
      obtain ⟨e, he1, he2⟩ := List.mem_map.mp hk
      have := GoMap.get?_of_mem topic.Subscriptions hr.1 e.1 e.2 he1
      rw [he2, hg] at this
      have h3 : e = (a.key, some sub) := by
        cases e
        simp only at he2 this
        simp only [Option.some.injEq] at this
        rw [he2, ← this]
      rw [← h3]; exact he1
    have hb := hrange _ hmem
    simp only [counterBelowMax, Bool.and_eq_true, decide_eq_true_eq] at hb
    have hw := wrapInt64_succ sub.ErrCount hb.1 hb.2
    refine ⟨sub, hg, ?_, ?_⟩
    · intro hnone
      rw [he, hnone]
      rfl
    · intro hsome
      obtain ⟨e, hee⟩ := Option.ne_none_iff_exists'.mp hsome
      rw [he, hee]
      simp only [afterDelivery, hw]
      by_cases hthr : topic.PublishSettings.ErrorThreshold ≤ sub.ErrCount + 1
      · right
        exact ⟨hthr, by rw [if_pos hthr]⟩
      · left
        rw [if_neg hthr]
  · intro i key s sub hget hurl hhash k hk
    obtain ⟨s1, hstep, -, -, -, hframe, -⟩ := publishStep_topic env i key s sub hget hurl hhash
    rw [hstep]
    exact hframe k hk

end Registry

/-- C11 on the scenario with three subscriptions, the second unreachable. -/
theorem C11_ErrCount_changes_witness :
    registryOk (sampleEnv ["http://b"]) (sampleTopicWith "t" 5 threeSubs).Subscriptions ∧
    (∀ e ∈ (sampleTopicWith "t" 5 threeSubs).Subscriptions, counterBelowMax e.2 = true) ∧
    (∃ w1 res atts topic1,
      HTTPPublisher.Publish (sampleEnv ["http://b"]) (sampleWorld "t" 5 threeSubs)
        (hiRequest "t") = .done w1 (some res, none) ∧
      w1.log = (sampleWorld "t" 5 threeSubs).log ++ atts ∧
      atts.map Attempt.key = (sampleTopicWith "t" 5 threeSubs).Subscriptions.keys ∧
      w1.pub.Topics.get? (hiRequest "t").Topic = some topic1 ∧
      ∀ a ∈ atts, ∃ sub,
        (sampleTopicWith "t" 5 threeSubs).Subscriptions.get? a.key = some (some sub) ∧
        (a.err = none → topic1.Subscriptions.get? a.key = some (some sub)) ∧
        (a.err ≠ none →
          topic1.Subscriptions.get? a.key =
              some (some { sub with ErrCount := sub.ErrCount + 1 }) ∨
            ((sampleTopicWith "t" 5 threeSubs).PublishSettings.ErrorThreshold ≤
                sub.ErrCount + 1 ∧
              topic1.Subscriptions.get? a.key = some none))) ∧
    ((HTTPPublisher.Publish (sampleEnv ["http://b"]) (sampleWorld "t" 5 threeSubs)
        (hiRequest "t")).state.pub.Topics.get? "t").map
          (fun t => t.Subscriptions.map (fun e => e.2.map Subscription.ErrCount)) =
      some [some 0, some 1, some 0] :=
  ⟨⟨by decide, by decide⟩, by decide,
    (C11_ErrCount_changes (sampleEnv ["http://b"]) (sampleWorld "t" 5 threeSubs)
      (hiRequest "t") (sampleTopicWith "t" 5 threeSubs)
      (jsonMessages (hiRequest "t").Messages) (by decide) rfl ⟨by decide, by decide⟩
      (by decide)).1,
    by decide⟩

section Delivery

variable {σ : Type}

/-- Attempts on a registry without nil entry: one `Publish` call on a
registered topic whose registry holds only usable entries, with a request that
serializes, returns a response and a nil error, whatever the transport
answers; in that call every key of the registry is attempted exactly once, at
its subscription's endpoint, and nothing else is attempted. -/
theorem Publish_attempts_of_registryOk (env : Env σ) (w : World σ) (pr : PublishRequest)
    (topic : Topic) (msg : Bytes)
    (ht : w.pub.Topics.get? pr.Topic = some topic)
    (hm : env.jsonMarshal pr.Messages = .ok msg)
    (hr : registryOk env topic.Subscriptions) :
    ∃ w1 res atts,
      HTTPPublisher.Publish env w pr = .done w1 (some res, none) ∧
      w1.log = w.log ++ atts ∧
      atts.length = topic.Subscriptions.length ∧
      (∀ k ∈ topic.Subscriptions.keys, (atts.map Attempt.key).count k = 1) ∧
      (∀ k, k ∉ topic.Subscriptions.keys → (atts.map Attempt.key).count k = 0) ∧
      (∀ a ∈ atts, ∃ sub, topic.Subscriptions.get? a.key = some (some sub) ∧
        a.req.url = sub.Endpoint) := by
  obtain ⟨w1, res, atts, topic1, hpub, hlog, hkeys, -, -, -, hents, -⟩ :=
    Publish_registry env w pr topic msg ht hm hr
  refine ⟨w1, res, atts, hpub, hlog, ?_, ?_, ?_, ?_⟩
  · have := congrArg List.length hkeys
    simpa [GoMap.keys] using this
  · intro k hk
    rw [hkeys]
    exact List.count_eq_one_of_mem hr.1 hk
  · intro k hk
    rw [hkeys]
    exact List.count_eq_zero_of_not_mem hk
  · intro a ha
    obtain ⟨sub, hg, hu, -⟩ := hents a ha
    exact ⟨sub, hg, hu⟩

/-- C13: in one `Publish` call on a registered topic with a usable registry, a
subscription's entry is taken out (set to nil by `Unsubscribe`) if and only if
its delivery failed and its incremented `ErrCount` is at least the topic's
`ErrorThreshold`; in every other case the entry still holds the subscription,
under the same hash and with the same endpoint, headers and address. -/
theorem C13_trip_iff (env : Env σ) (w : World σ) (pr : PublishRequest)
    (topic : Topic) (msg : Bytes)
    (ht : w.pub.Topics.get? pr.Topic = some topic)
    (hm : env.jsonMarshal pr.Messages = .ok msg)
    (hr : registryOk env topic.Subscriptions) :
    ∃ w1 res atts topic1,
      HTTPPublisher.Publish env w pr = .done w1 (some res, none) ∧
      w1.log = w.log ++ atts ∧
      atts.map Attempt.key = topic.Subscriptions.keys ∧
      w1.pub.Topics.get? pr.Topic = some topic1 ∧
      ∀ a ∈ atts, ∃ sub, topic.Subscriptions.get? a.key = some (some sub) ∧
        (topic1.Subscriptions.get? a.key = some none ↔
          (a.err ≠ none ∧
            topic.PublishSettings.ErrorThreshold ≤ wrapInt64 (sub.ErrCount + 1))) ∧
        (¬ (a.err ≠ none ∧
            topic.PublishSettings.ErrorThreshold ≤ wrapInt64 (sub.ErrCount + 1)) →
          ∃ sub1, topic1.Subscriptions.get? a.key = some (some sub1) ∧
            sub1.Hash = a.key ∧ sub1.Endpoint = sub.Endpoint ∧
            sub1.Headers = sub.Headers ∧ sub1.Address = sub.Address) := by
  obtain ⟨w1, res, atts, topic1, hpub, hlog, hkeys, -, hget1, -, hents, -⟩ :=
    Publish_registry env w pr topic msg ht hm hr
  refine ⟨w1, res, atts, topic1, hpub, hlog, hkeys, hget1, ?_⟩
  intro a ha
  obtain ⟨sub, hg, -, he⟩ := hents a ha
  have hk : a.key ∈ topic.Subscriptions.keys := by
    rw [← hkeys]; exact List.mem_map_of_mem Attempt.key ha
  obtain ⟨sub0, hg0, -, hh0⟩ := registryOk_entries env _ hr a.key hk
  have hsub : sub0 = sub := by
    rw [hg] at hg0
    simpa using hg0.symm
  subst hsub
  refine ⟨sub0, hg, ?_, ?_⟩
  · rw [he]
    cases hae : a.err with
    | none => simp [afterDelivery]
    | some e =>
      by_cases hthr : topic.PublishSettings.ErrorThreshold ≤ wrapInt64 (sub0.ErrCount + 1)
      · simp [afterDelivery, hthr]
      · simp [afterDelivery, hthr]
  · intro hno
    rw [he]
    cases hae : a.err with
    | none => exact ⟨sub0, rfl, hh0, rfl, rfl, rfl⟩
    | some e =>
      have hthr : ¬ topic.PublishSettings.ErrorThreshold ≤ wrapInt64 (sub0.ErrCount + 1) := by
        intro h
        exact hno ⟨by simp [hae], h⟩
      simp only [afterDelivery, if_neg hthr]
      exact ⟨_, rfl, hh0, rfl, rfl, rfl⟩

/-- C17: when the request names a topic that is not registered, `Publish`
returns no response and the error `TOPIC_NOTFOUND`, and the world is exactly
as before: no transport call was made and no topic, subscription or counter
was changed. -/
theorem C17_unknown_topic (env : Env σ) (w : World σ) (pr : PublishRequest)
    (h : w.pub.TopicExists pr.Topic = false) :
    HTTPPublisher.Publish env w pr = .done w (none, some TOPIC_NOTFOUND) ∧
    (HTTPPublisher.Publish env w pr).state.log = w.log ∧
    (HTTPPublisher.Publish env w pr).state.pub = w.pub := by
  have hp : HTTPPublisher.Publish env w pr = .done w (none, some TOPIC_NOTFOUND) := by
    unfold HTTPPublisher.Publish
    rw [GetTopic_of_absent _ _ h]
  rw [hp]
  exact ⟨rfl, rfl, rfl⟩

end Delivery

/-- The scenario with three subscriptions, the second unreachable: each key is
attempted once. -/
theorem Publish_attempts_of_registryOk_example :
    registryOk (sampleEnv ["http://b"]) (sampleTopicWith "t" 5 threeSubs).Subscriptions ∧
    (∃ w1 res atts,
      HTTPPublisher.Publish (sampleEnv ["http://b"]) (sampleWorld "t" 5 threeSubs)
        (hiRequest "t") = .done w1 (some res, none) ∧
      w1.log = (sampleWorld "t" 5 threeSubs).log ++ atts ∧
      atts.length = (sampleTopicWith "t" 5 threeSubs).Subscriptions.length ∧
      (∀ k ∈ (sampleTopicWith "t" 5 threeSubs).Subscriptions.keys,
        (atts.map Attempt.key).count k = 1) ∧
      (∀ k, k ∉ (sampleTopicWith "t" 5 threeSubs).Subscriptions.keys →
        (atts.map Attempt.key).count k = 0) ∧
      (∀ a ∈ atts, ∃ sub,
        (sampleTopicWith "t" 5 threeSubs).Subscriptions.get? a.key = some (some sub) ∧
        a.req.url = sub.Endpoint)) ∧
    (HTTPPublisher.Publish (sampleEnv ["http://b"]) (sampleWorld "t" 5 threeSubs)
        (hiRequest "t")).state.log.map (fun a => (a.key, a.req.url)) =
      [("h1", "http://a"), ("h2", "http://b"), ("h3", "http://c")] :=
  ⟨⟨by decide, by decide⟩,
    Publish_attempts_of_registryOk (sampleEnv ["http://b"]) (sampleWorld "t" 5 threeSubs)
      (hiRequest "t") (sampleTopicWith "t" 5 threeSubs)
      (jsonMessages (hiRequest "t").Messages) (by decide) rfl ⟨by decide, by decide⟩,
    by decide⟩

/-- C13 on the scenario with three subscriptions and threshold 1: only the
unreachable second subscription is tripped. -/
theorem C13_trip_iff_witness :
    registryOk (sampleEnv ["http://b"]) (sampleTopicWith "t" 1 threeSubs).Subscriptions ∧
    (∃ w1 res atts topic1,
      HTTPPublisher.Publish (sampleEnv ["http://b"]) (sampleWorld "t" 1 threeSubs)
        (hiRequest "t") = .done w1 (some res, none) ∧
      w1.log = (sampleWorld "t" 1 threeSubs).log ++ atts ∧
      atts.map Attempt.key = (sampleTopicWith "t" 1 threeSubs).Subscriptions.keys ∧
      w1.pub.Topics.get? (hiRequest "t").Topic = some topic1 ∧
      ∀ a ∈ atts, ∃ sub,
        (sampleTopicWith "t" 1 threeSubs).Subscriptions.get? a.key = some (some sub) ∧
        (topic1.Subscriptions.get? a.key = some none ↔
          (a.err ≠ none ∧
            (sampleTopicWith "t" 1 threeSubs).PublishSettings.ErrorThreshold ≤
              wrapInt64 (sub.ErrCount + 1))) ∧
        (¬ (a.err ≠ none ∧
            (sampleTopicWith "t" 1 threeSubs).PublishSettings.ErrorThreshold ≤
              wrapInt64 (sub.ErrCount + 1)) →
          ∃ sub1, topic1.Subscriptions.get? a.key = some (some sub1) ∧
            sub1.Hash = a.key ∧ sub1.Endpoint = sub.Endpoint ∧
            sub1.Headers = sub.Headers ∧ sub1.Address = sub.Address)) ∧
    ((HTTPPublisher.Publish (sampleEnv ["http://b"]) (sampleWorld "t" 1 threeSubs)
        (hiRequest "t")).state.pub.Topics.get? "t").map
          (fun t => t.Subscriptions.map (fun e => (e.1, e.2.isSome))) =
      some [("h1", true), ("h2", false), ("h3", true)] :=
  ⟨⟨by decide, by decide⟩,
    C13_trip_iff (sampleEnv ["http://b"]) (sampleWorld "t" 1 threeSubs)
      (hiRequest "t") (sampleTopicWith "t" 1 threeSubs)
      (jsonMessages (hiRequest "t").Messages) (by decide) rfl ⟨by decide, by decide⟩,
    by decide⟩

/-- C17 on a publisher that only knows topic "t". -/
theorem C17_unknown_topic_witness :
    (sampleWorld "t" 5 threeSubs).pub.TopicExists (hiRequest "ghost").Topic = false ∧
    HTTPPublisher.Publish (sampleEnv []) (sampleWorld "t" 5 threeSubs) (hiRequest "ghost") =
      .done (sampleWorld "t" 5 threeSubs) (none, some TOPIC_NOTFOUND) :=
  ⟨by decide,
    (C17_unknown_topic (sampleEnv []) (sampleWorld "t" 5 threeSubs) (hiRequest "ghost")
      (by decide)).1⟩

/-! ## Subscription identity -/

theorem hexDecode_ok_iff : ∀ bs : Bytes,
    (∃ out, hexDecode bs = .ok out) ↔
      (bs.length % 2 = 0 ∧ bs.all (fun b => (hexVal b).isSome) = true)
  | [] => by simp [hexDecode]
  | [a] => by cases h : hexVal a <;> simp [hexDecode, h]
  | a :: b :: rest => by
    have ih := hexDecode_ok_iff rest
    have hlen : (a :: b :: rest).length % 2 = rest.length % 2 := by
      simp only [List.length_cons]; omega
    rw [hlen]
    cases ha : hexVal a with
    | none => simp [hexDecode, ha]
    | some x =>
      cases hb : hexVal b with
      | none => simp [hexDecode, ha, hb]
      | some y =>
        cases hr : hexDecode rest with
        | error e =>
          have hno : ¬ ∃ out, hexDecode rest = .ok out := by simp [hr]
          have := mt ih.mpr hno
          simp only [hexDecode, ha, hb, hr, List.all_cons, Option.isSome_some, Bool.true_and]
          constructor
          · rintro ⟨out, hout⟩; cases hout
          · intro h; exact absurd h this
        | ok out =>
          have := ih.mp ⟨out, hr⟩
          simp only [hexDecode, ha, hb, hr, List.all_cons, Option.isSome_some, Bool.true_and]
          exact ⟨fun _ => this, fun _ => ⟨_, rfl⟩⟩

theorem hexDecodeString_ok_iff (s : String) :
    (∃ out, hexDecodeString s = .ok out) ↔ validHex s = true := by
  unfold hexDecodeString validHex
  rw [hexDecode_ok_iff]
  simp

theorem hexDecodeString_cases (s : String) :
    (validHex s = true ∧ ∃ out, hexDecodeString s = .ok out) ∨
    (validHex s = false ∧ ∃ err, hexDecodeString s = .error err) := by
  cases h : hexDecodeString s with
  | ok out => exact Or.inl ⟨(hexDecodeString_ok_iff s).mp ⟨out, h⟩, out, rfl⟩
  | error err =>
    right
    refine ⟨?_, err, rfl⟩
    cases hv : validHex s
    · rfl
    · obtain ⟨out, hout⟩ := (hexDecodeString_ok_iff s).mpr hv
      rw [h] at hout
      cases hout

theorem writeValues_three (a e : Bytes) (c : Int) :
    writeValues [] [.bytes a, .bytes e, .int64 c] = .ok (a ++ e ++ le64 c) := by
  simp [writeValues, binaryWrite]

/-- The bytes hashed by `MakeHash` depend on address, endpoint and creation
time only. -/
theorem hashInput_congr (a b : Subscription) (hA : a.Address = b.Address)
    (hE : a.Endpoint = b.Endpoint) (hC : a.Created = b.Created) :
    hashInput a = hashInput b := by
  unfold hashInput
  rw [hA, hE, hC]

theorem hashInput_ok (this : Subscription) (a e : Bytes)
    (ha : hexDecodeString this.Address = .ok a) (he : hexDecodeString this.Endpoint = .ok e) :
    hashInput this = .ok (a ++ e ++ le64 this.Created) := by
  unfold hashInput
  rw [ha, he]
  exact writeValues_three a e this.Created

/-- C14: two subscriptions with the same `Address`, `Endpoint` and `Created`,
whatever their `Headers`, `ErrCount` and previous `Hash`, get the same result
from `MakeHash`: the same error on both, or no error and the same `Hash`. -/
theorem C14_MakeHash_deterministic (NewHash : Bytes → Bytes) (a b : Subscription)
    (hA : a.Address = b.Address) (hE : a.Endpoint = b.Endpoint)
    (hC : a.Created = b.Created) :
    (a.MakeHash NewHash).1 = (b.MakeHash NewHash).1 ∧
    ((∃ err, (a.MakeHash NewHash).1 = some err ∧ (b.MakeHash NewHash).1 = some err) ∨
      ((a.MakeHash NewHash).1 = none ∧ (b.MakeHash NewHash).1 = none ∧
        (a.MakeHash NewHash).2.Hash = (b.MakeHash NewHash).2.Hash)) := by
  have h := hashInput_congr a b hA hE hC
  unfold Subscription.MakeHash
  rw [h]
  cases hi : hashInput b with
  | error err => exact ⟨rfl, Or.inl ⟨err, rfl, rfl⟩⟩
  | ok buf => exact ⟨rfl, Or.inr ⟨rfl, rfl, rfl⟩⟩

/-- C14 on two subscriptions that differ in headers, counter and old hash. -/
theorem C14_MakeHash_deterministic_witness :
    ({ Hash := "", Endpoint := "cd", Headers := [], Address := "ab", Created := 258,
       ErrCount := 0 } : Subscription).Address =
      ({ Hash := "old", Endpoint := "cd", Headers := [("X-Key", "v")], Address := "ab",
         Created := 258, ErrCount := 3 } : Subscription).Address ∧
    (({ Hash := "", Endpoint := "cd", Headers := [], Address := "ab", Created := 258,
        ErrCount := 0 } : Subscription).MakeHash (fun b => b)).1 =
      (({ Hash := "old", Endpoint := "cd", Headers := [("X-Key", "v")], Address := "ab",
          Created := 258, ErrCount := 3 } : Subscription).MakeHash (fun b => b)).1 ∧
    (({ Hash := "old", Endpoint := "cd", Headers := [("X-Key", "v")], Address := "ab",
        Created := 258, ErrCount := 3 } : Subscription).MakeHash (fun b => b)).2.Hash =
      "abcd0201000000000000" :=
  ⟨rfl,
    (C14_MakeHash_deterministic (fun b => b)
      { Hash := "", Endpoint := "cd", Headers := [], Address := "ab", Created := 258,
        ErrCount := 0 }
      { Hash := "old", Endpoint := "cd", Headers := [("X-Key", "v")], Address := "ab",
        Created := 258, ErrCount := 3 } rfl rfl rfl).1,
    by decide⟩

theorem MakeHash_cases (NewHash : Bytes → Bytes) (sub : Subscription) :
    (validHex sub.Address = true ∧ validHex sub.Endpoint = true ∧
      ∃ a e, hexDecodeString sub.Address = .ok a ∧ hexDecodeString sub.Endpoint = .ok e ∧
        sub.MakeHash NewHash =
          (none, { sub with Hash := hexEncodeToString (NewHash (a ++ e ++ le64 sub.Created)) })) ∨
    ((validHex sub.Address = false ∨ validHex sub.Endpoint = false) ∧
      ∃ err, (hexDecodeString sub.Address = .error err ∨
          hexDecodeString sub.Endpoint = .error err) ∧
        sub.MakeHash NewHash = (some err, sub)) := by
  rcases hexDecodeString_cases sub.Address with ⟨hva, a, ha⟩ | ⟨hva, err, ha⟩
  · rcases hexDecodeString_cases sub.Endpoint with ⟨hve, e, he⟩ | ⟨hve, err, he⟩
    · left
      refine ⟨hva, hve, a, e, ha, he, ?_⟩
      unfold Subscription.MakeHash
      rw [hashInput_ok sub a e ha he]
    · right
      refine ⟨Or.inr hve, err, Or.inr he, ?_⟩
      unfold Subscription.MakeHash hashInput
      rw [ha, he]
  · right
    refine ⟨Or.inl hva, err, Or.inl ha, ?_⟩
    unfold Subscription.MakeHash hashInput
    rw [ha]

theorem lowerHexDigit_mem : ∀ n, n < 16 → lowerHexDigit n ∈ "0123456789abcdef".data := by
  decide

theorem hexEncodeToString_length (bs : Bytes) :
    (hexEncodeToString bs).length = 2 * bs.length := by
  unfold hexEncodeToString
  rw [String.length_mk]
  induction bs with
  | nil => rfl
  | cons b bs ih =>
    simp only [List.map_cons, List.flatten_cons, List.length_append, List.length_cons,
      List.length_nil, ih]
    omega

theorem hexEncodeToString_chars (bs : Bytes) :
    ∀ c ∈ (hexEncodeToString bs).data, c ∈ "0123456789abcdef".data := by
  unfold hexEncodeToString
  intro c hc
  simp only [List.mem_flatten, List.mem_map] at hc
  obtain ⟨l, ⟨b, -, rfl⟩, hcl⟩ := hc
  simp only [List.mem_cons, List.mem_singleton, List.not_mem_nil, or_false] at hcl
  rcases hcl with rfl | rfl
  · exact lowerHexDigit_mem _ (Nat.mod_lt _ (by decide))
  · exact lowerHexDigit_mem _ (Nat.mod_lt _ (by decide))

/-- C15: `MakeHash` and `NewSubscription` fail exactly when the address or the
endpoint is not valid hexadecimal (odd length or a byte that is no hex digit),
and the error is the decoding error of `hex.DecodeString`.  On failure
`MakeHash` leaves the subscription, its `Hash` included, as it was and
`NewSubscription` returns no subscription.  When both strings are valid
`NewSubscription` returns a subscription with the given fields, `ErrCount` 0
and a non-empty `Hash` of lower-case hex digits (`crypto.NewHash` yields a
digest that is not empty). -/
theorem C15_decoding_error (NewHash : Bytes → Bytes) (hne : ∀ x, NewHash x ≠ [])
    (now : Int) (endpoint : String) (headers : GoMap String) (address : String)
    (sub : Subscription) :
    ((sub.MakeHash NewHash).1 ≠ none ↔
      (validHex sub.Address = false ∨ validHex sub.Endpoint = false)) ∧
    (∀ err, (sub.MakeHash NewHash).1 = some err →
      (hexDecodeString sub.Address = .error err ∨
        hexDecodeString sub.Endpoint = .error err) ∧
      (sub.MakeHash NewHash).2 = sub) ∧
    ((NewSubscription NewHash now endpoint headers address).2 ≠ none ↔
      (validHex address = false ∨ validHex endpoint = false)) ∧
    ((NewSubscription NewHash now endpoint headers address).2 ≠ none →
      (NewSubscription NewHash now endpoint headers address).1 = none ∧
      ∃ err, (NewSubscription NewHash now endpoint headers address).2 = some err ∧
        (hexDecodeString address = .error err ∨ hexDecodeString endpoint = .error err)) ∧
    (validHex address = true → validHex endpoint = true →
      ∃ s, NewSubscription NewHash now endpoint headers address = (some s, none) ∧
        s.Hash ≠ "" ∧
        (∀ c ∈ s.Hash.data, c ∈ "0123456789abcdef".data) ∧
        s.ErrCount = 0 ∧ s.Endpoint = endpoint ∧ s.Headers = headers ∧
        s.Address = address ∧ s.Created = now) := by
  have hnew := MakeHash_cases NewHash
    { Hash := "", Endpoint := endpoint, Headers := headers, Address := address,
      Created := now, ErrCount := 0 }
  refine ⟨?_, ?_, ?_, ?_, ?_⟩
  · rcases MakeHash_cases NewHash sub with ⟨hva, hve, a, e, -, -, hm⟩ | ⟨hinv, err, -, hm⟩
    · rw [hm]; simp [hva, hve]
    · rw [hm]; simp [hinv]
  · intro err herr
    rcases MakeHash_cases NewHash sub with ⟨-, -, a, e, -, -, hm⟩ | ⟨-, err1, hdec, hm⟩
    · rw [hm] at herr; cases herr
    · rw [hm] at herr ⊢
      simp only [Option.some.injEq] at herr
      subst herr
      exact ⟨hdec, rfl⟩
  · unfold NewSubscription
    rcases hnew with ⟨hva, hve, a, e, -, -, hm⟩ | ⟨hinv, err, -, hm⟩
    · simp only at hva hve
      simp only [hm]
      simp [hva, hve]
    · simp only at hinv
      simp only [hm]
      simp [hinv]
  · intro hfail
    unfold NewSubscription at hfail ⊢
    rcases hnew with ⟨-, -, a, e, -, -, hm⟩ | ⟨-, err, hdec, hm⟩
    · simp only [hm] at hfail
      exact absurd rfl hfail
    · simp only [hm]
      refine ⟨?_, err, ?_, hdec⟩ <;> first | rfl | trivial
  · intro hva hve
    unfold NewSubscription
    rcases hnew with ⟨-, -, a, e, -, -, hm⟩ | ⟨hinv, -⟩
    · simp only [hm]
      refine ⟨_, rfl, ?_, ?_, rfl, rfl, rfl, rfl, rfl⟩
      · intro h0
        have := hexEncodeToString_length (NewHash (a ++ e ++ le64 now))
        simp only at h0
        rw [h0] at this
        have h1 : (NewHash (a ++ e ++ le64 now)).length = 0 := by
          simp only [String.length, List.length_nil] at this
          omega
        exact hne _ (List.length_eq_zero.mp h1)
      · exact hexEncodeToString_chars _
    · simp only at hinv
      rcases hinv with h | h
      · rw [hva] at h; cases h
      · rw [hve] at h; cases h

/-- C15 on the address "ab" with the endpoints "cd" (valid) and "xyz" (not
hexadecimal). -/
theorem C15_decoding_error_witness :
    (∀ x, sampleHash x ≠ []) ∧
    validHex "ab" = true ∧ validHex "cd" = true ∧ validHex "xyz" = false ∧
    (∃ s, NewSubscription sampleHash 258 "cd" [] "ab" = (some s, none) ∧
        s.Hash ≠ "" ∧
        (∀ c ∈ s.Hash.data, c ∈ "0123456789abcdef".data) ∧
        s.ErrCount = 0 ∧ s.Endpoint = "cd" ∧ s.Headers = [] ∧
        s.Address = "ab" ∧ s.Created = 258) ∧
    (NewSubscription sampleHash 258 "xyz" [] "ab").2 ≠ none ∧
    NewSubscription sampleHash 258 "xyz" [] "ab" =
      (none, some "encoding/hex: invalid byte: U+0078 \x27x\x27") :=
  ⟨fun _ => by simp [sampleHash], by decide, by decide, by decide,
    (C15_decoding_error sampleHash (fun _ => by simp [sampleHash]) 258 "cd" [] "ab"
      (sampleSub "" "")).2.2.2.2 (by decide) (by decide),
    ((C15_decoding_error sampleHash (fun _ => by simp [sampleHash]) 258 "xyz" [] "ab"
      (sampleSub "" "")).2.2.1).mpr (Or.inr (by decide)),
    by decide⟩

/-- C16: `Topic.Subscribe` on a subscription without hash first derives it
with `MakeHash`; if that fails, the error is returned and neither the topic
nor the subscription changes.  A hash that is already set is kept.  On success
the returned string is the subscription's hash, the registry maps that hash to
the subscription, and the entry under every other key is unchanged. -/
theorem C16_Subscribe (NewHash : Bytes → Bytes) (t : Topic) (sub : Subscription) :
    (sub.Hash = "" → ∀ err, (sub.MakeHash NewHash).1 = some err →
      t.Subscribe NewHash sub = (("", some err), sub, t)) ∧
    (sub.Hash = "" → (sub.MakeHash NewHash).1 = none →
      (t.Subscribe NewHash sub).1 = ((sub.MakeHash NewHash).2.Hash, none) ∧
      (t.Subscribe NewHash sub).2.1 = (sub.MakeHash NewHash).2) ∧
    (sub.Hash ≠ "" →
      (t.Subscribe NewHash sub).1 = (sub.Hash, none) ∧
      (t.Subscribe NewHash sub).2.1 = sub) ∧
    ((t.Subscribe NewHash sub).1.2 = none →
      (t.Subscribe NewHash sub).1.1 = (t.Subscribe NewHash sub).2.1.Hash ∧
      (t.Subscribe NewHash sub).2.2.Subscriptions.get? (t.Subscribe NewHash sub).1.1 =
        some (some (t.Subscribe NewHash sub).2.1) ∧
      (∀ k, k ≠ (t.Subscribe NewHash sub).1.1 →
        (t.Subscribe NewHash sub).2.2.Subscriptions.get? k = t.Subscriptions.get? k) ∧
      (t.Subscribe NewHash sub).2.1.Endpoint = sub.Endpoint ∧
      (t.Subscribe NewHash sub).2.1.Headers = sub.Headers ∧
      (t.Subscribe NewHash sub).2.1.Address = sub.Address ∧
      (t.Subscribe NewHash sub).2.1.Created = sub.Created ∧
      (t.Subscribe NewHash sub).2.1.ErrCount = sub.ErrCount) := by
  by_cases hh : sub.Hash = ""
  · rcases MakeHash_cases NewHash sub with ⟨-, -, a, e, -, -, hm⟩ | ⟨-, err1, -, hm⟩
    · have hs : t.Subscribe NewHash sub =
          ((hexEncodeToString (NewHash (a ++ e ++ le64 sub.Created)), none),
            { sub with Hash := hexEncodeToString (NewHash (a ++ e ++ le64 sub.Created)) },
            { t with Subscriptions := (t.Subscriptions.set
                (hexEncodeToString (NewHash (a ++ e ++ le64 sub.Created)))
                (some { sub with
                  Hash := hexEncodeToString (NewHash (a ++ e ++ le64 sub.Created)) })) }) := by
        unfold Topic.Subscribe
        rw [if_pos hh, hm]
      refine ⟨?_, ?_, fun h => absurd hh h, ?_⟩
      · intro _ err herr
        rw [hm] at herr
        cases herr
      · intro _ _
        rw [hs, hm]
        exact ⟨rfl, rfl⟩
      · intro _
        rw [hs]
        refine ⟨rfl, GoMap.get?_set_same _ _ _, ?_, rfl, rfl, rfl, rfl, rfl⟩
        intro k hk
        exact GoMap.get?_set_other _ _ _ _ (Ne.symm hk)
    · have hs : t.Subscribe NewHash sub = (("", some err1), sub, t) := by
        unfold Topic.Subscribe
        rw [if_pos hh, hm]
      refine ⟨?_, ?_, fun h => absurd hh h, ?_⟩
      · intro _ err herr
        rw [hm] at herr
        simp only [Option.some.injEq] at herr
        rw [hs, herr]
      · intro _ hnone
        rw [hm] at hnone
        cases hnone
      · intro hnone
        rw [hs] at hnone
        cases hnone
  · have hs : t.Subscribe NewHash sub =
        ((sub.Hash, none), sub,
          { t with Subscriptions := t.Subscriptions.set sub.Hash (some sub) }) := by
      unfold Topic.Subscribe
      rw [if_neg hh]
    refine ⟨fun h => absurd h hh, fun h => absurd h hh, ?_, ?_⟩
    · intro _
      rw [hs]
      exact ⟨rfl, rfl⟩
    · intro _
      rw [hs]
      refine ⟨rfl, GoMap.get?_set_same _ _ _, ?_, rfl, rfl, rfl, rfl, rfl⟩
      intro k hk
      exact GoMap.get?_set_other _ _ _ _ (Ne.symm hk)

/-- C16 on a topic that already holds "h1": a subscription with the preset
hash "h9" is added under "h9", and one without hash and with an endpoint that
is not hexadecimal is refused. -/
theorem C16_Subscribe_witness :
    (sampleSub "h9" "http://z").Hash ≠ "" ∧
    ((sampleTopicWith "t" 5 [("h1", some (sampleSub "h1" "http://a"))]).Subscribe sampleHash
        (sampleSub "h9" "http://z")).1 = ("h9", none) ∧
    ((sampleTopicWith "t" 5 [("h1", some (sampleSub "h1" "http://a"))]).Subscribe sampleHash
        (sampleSub "h9" "http://z")).2.2.Subscriptions =
      [("h1", some (sampleSub "h1" "http://a")), ("h9", some (sampleSub "h9" "http://z"))] ∧
    (sampleTopicWith "t" 5 [("h1", some (sampleSub "h1" "http://a"))]).Subscribe sampleHash
        (sampleSub "" "http://z") =
      (("", some "encoding/hex: invalid byte: U+0068 \x27h\x27"), sampleSub "" "http://z",
        sampleTopicWith "t" 5 [("h1", some (sampleSub "h1" "http://a"))]) :=
  ⟨by decide,
    ((C16_Subscribe sampleHash
      (sampleTopicWith "t" 5 [("h1", some (sampleSub "h1" "http://a"))])
      (sampleSub "h9" "http://z")).2.2.1 (by decide)).1,
    by decide,
    (C16_Subscribe sampleHash
      (sampleTopicWith "t" 5 [("h1", some (sampleSub "h1" "http://a"))])
      (sampleSub "" "http://z")).1 rfl _ (by decide)⟩

/-! ## The flush handler's request and the bundler -/

theorem collectBodies_of_msgs (bms : List bundledMessage)
    (hb : ∀ bm ∈ bms, bm.msg.isSome = true) :
    collectBodies bms =
      .done (bms.map (fun bm => { bm with msg := none }))
        (bms.map (fun bm => bm.msg.map (fun m => { Body := m.Body }))) := by
  induction bms with
  | nil => rfl
  | cons bm rest ih =>
    have h1 := hb bm (List.mem_cons_self _ _)
    have h2 := ih (fun b hb1 => hb b (List.mem_cons_of_mem _ hb1))
    obtain ⟨m, hm⟩ := Option.isSome_iff_exists.mp h1
    simp [collectBodies, hm, h2]

/-- C18: for a bundle whose items carry their message, and a topic bound to a
publisher, the flush handler calls `Publish` exactly once; the request names
the topic, and its messages are, in bundle order, one message per item with
the body of that item's message. -/
theorem C18_one_publish_call {ω : Type} (t : Topic)
    (publish : ω → PublishRequest → Run ω (Option PublishResponse × Option GoError))
    (bms : List bundledMessage) (w : ω)
    (hp : t.Publisher.isSome = true)
    (hb : ∀ bm ∈ bms, bm.msg.isSome = true) :
    ∃ pr, (t.publishMessageBundle (recording publish) bms (w, [])).state.2.2 = [pr] ∧
      pr.Topic = t.name ∧
      pr.Messages.length = bms.length ∧
      (∀ m ∈ pr.Messages, m.isSome = true) ∧
      pr.Messages.map (Option.map Message.Body) =
        bms.map (fun bm => bm.msg.map Message.Body) := by
  obtain ⟨a, ha⟩ := Option.isSome_iff_exists.mp hp
  refine ⟨bundleRequest t bms, ?_, rfl, by simp [bundleRequest], ?_, ?_⟩
  · unfold Topic.publishMessageBundle
    rw [collectBodies_of_msgs bms hb]
    simp only [ha, recording, List.nil_append]
    cases hcall : publish w
        { Topic := t.name
          Messages := bms.map (fun bm => bm.msg.map (fun m => { Body := m.Body })) } with
    | panic w1 msg => rfl
    | done w1 r =>
      obtain ⟨res, err⟩ := r
      simp only
      cases setResults res err 0 (bms.map (fun bm => { bm with msg := none })) <;> rfl
  · intro m hm
    simp only [bundleRequest, List.mem_map] at hm
    obtain ⟨bm, hbm, rfl⟩ := hm
    obtain ⟨m0, hm0⟩ := Option.isSome_iff_exists.mp (hb bm hbm)
    simp [hm0]
  · simp only [bundleRequest, List.map_map]
    apply List.map_congr_left
    intro bm _
    cases h : bm.msg <;> simp [h]

/-- C18 with the HTTP publisher and a bundle of two messages. -/
theorem C18_one_publish_call_witness :
    (∀ bm ∈ [sampleItem [104], sampleItem [105]], bm.msg.isSome = true) ∧
    (∃ pr, ((sampleTopic "t").publishMessageBundle
        (recording (HTTPPublisher.Publish (sampleEnv [])))
        [sampleItem [104], sampleItem [105]]
        (sampleWorld "t" 5 threeSubs, [])).state.2.2 = [pr] ∧
      pr.Topic = (sampleTopic "t").name ∧
      pr.Messages.length = [sampleItem [104], sampleItem [105]].length ∧
      (∀ m ∈ pr.Messages, m.isSome = true) ∧
      pr.Messages.map (Option.map Message.Body) =
        [sampleItem [104], sampleItem [105]].map (fun bm => bm.msg.map Message.Body)) ∧
    ((sampleTopic "t").publishMessageBundle
        (recording (HTTPPublisher.Publish (sampleEnv [])))
        [sampleItem [104], sampleItem [105]]
        (sampleWorld "t" 5 threeSubs, [])).state.2.2 =
      [{ Topic := "t", Messages := [some { Body := [104] }, some { Body := [105] }] }] :=
  ⟨by decide,
    C18_one_publish_call (sampleTopic "t") (HTTPPublisher.Publish (sampleEnv []))
      [sampleItem [104], sampleItem [105]] (sampleWorld "t" 5 threeSubs) (by decide)
      (by decide),
    by decide⟩

theorem initBundler_of_some (g : Int) (t : Topic) (h : t.bundler.isSome = true) :
    t.initBundler g = t := by
  unfold Topic.initBundler
  simp [h]

theorem initBundler_of_none (g : Int) (t : Topic) (h : t.bundler = none) :
    (t.initBundler g).bundler =
      some { DelayThreshold := t.PublishSettings.DelayThreshold
             BundleCountThreshold := t.PublishSettings.CountThreshold
             HandlerLimit :=
               if t.PublishSettings.NumGoroutines > 0 then t.PublishSettings.NumGoroutines
               else 25 * g } := by
  unfold Topic.initBundler
  simp only [h, Option.isSome_none, Bool.false_eq_true, if_false]
  split <;> rfl

theorem Topic.Publish_state (g : Int) (addErr : Option GoError) (t : Topic) (m : Message) :
    (Topic.Publish g addErr t (some m)).state = t.initBundler g := by
  unfold Topic.Publish
  cases addErr with
  | none => rfl
  | some e =>
    simp only [Set_of_opened PublishResult.fresh "" (some e) rfl]
    rfl

/-- C19: when `initBundler` constructs the bundler (none was set), the
bundler's delay threshold is `PublishSettings.DelayThreshold`, its count
threshold is `PublishSettings.CountThreshold`, and its handler limit is
`PublishSettings.NumGoroutines` when that is positive and 25 times
`GOMAXPROCS` otherwise.  A topic from `NewTopic` gets the default thresholds
and the limit 25 times `GOMAXPROCS`, which is at least 25. -/
theorem C19_initBundler_settings (g : Int) (t : Topic) (name : String)
    (hnone : t.bundler = none) (hg : 1 ≤ g) :
    (∃ b, (t.initBundler g).bundler = some b ∧
      b.DelayThreshold = t.PublishSettings.DelayThreshold ∧
      b.BundleCountThreshold = t.PublishSettings.CountThreshold ∧
      (0 < t.PublishSettings.NumGoroutines →
        b.HandlerLimit = t.PublishSettings.NumGoroutines) ∧
      (t.PublishSettings.NumGoroutines ≤ 0 → b.HandlerLimit = 25 * g)) ∧
    (∃ b, ((NewTopic name).initBundler g).bundler = some b ∧
      b.DelayThreshold = 10000000 ∧ b.BundleCountThreshold = 100 ∧
      b.HandlerLimit = 25 * g ∧ 25 ≤ b.HandlerLimit) := by
  constructor
  · refine ⟨_, initBundler_of_none g t hnone, rfl, rfl, ?_, ?_⟩
    · intro h
      simp only
      rw [if_pos h]
    · intro h
      simp only
      rw [if_neg (by omega)]
  · refine ⟨_, initBundler_of_none g (NewTopic name) rfl, rfl, rfl, ?_, ?_⟩
    · simp [NewTopic, DefaultPublishSettings]
    · simp only [NewTopic, DefaultPublishSettings]
      simp only [gt_iff_lt, lt_self_iff_false, if_false]
      omega

/-- C19 with four processors. -/
theorem C19_initBundler_settings_witness :
    (sampleTopicWith "t" 5 []).bundler = none ∧ (1 : Int) ≤ 4 ∧
    ((sampleTopicWith "t" 5 []).initBundler 4).bundler =
      some { DelayThreshold := 10000000, BundleCountThreshold := 100, HandlerLimit := 100 } ∧
    (∃ b, ((NewTopic "fresh").initBundler 4).bundler = some b ∧
      b.DelayThreshold = 10000000 ∧ b.BundleCountThreshold = 100 ∧
      b.HandlerLimit = 25 * 4 ∧ 25 ≤ b.HandlerLimit) :=
  ⟨rfl, by decide, by decide,
    (C19_initBundler_settings 4 (sampleTopicWith "t" 5 []) "fresh" rfl (by decide)).2⟩

theorem publishMany_bundler (g : Int) (steps : List (PublishSettings × Message × Option GoError)) :
    ∀ t : Topic, t.bundler.isSome = true → (publishMany g t steps).bundler = t.bundler := by
  induction steps with
  | nil => intro t _; rfl
  | cons st rest ih =>
    intro t ht
    obtain ⟨ps, m, addErr⟩ := st
    simp only [publishMany, Topic.Publish_state]
    have h1 : ({ t with PublishSettings := ps } : Topic).initBundler g =
        { t with PublishSettings := ps } := initBundler_of_some g _ ht
    rw [h1]
    exact ih _ ht

/-- C20: on a topic without bundler, the first `Topic.Publish` constructs the
bundler from the settings in force at that call; every later `Topic.Publish`
leaves that bundler and its thresholds as they are, also when
`PublishSettings` was replaced in between, and `initBundler` on a topic that
has a bundler changes nothing. -/
theorem C20_bundler_constructed_once (g : Int) (t : Topic) (ps1 : PublishSettings)
    (m1 : Message) (e1 : Option GoError)
    (steps : List (PublishSettings × Message × Option GoError))
    (hnone : t.bundler = none) :
    (Topic.Publish g e1 { t with PublishSettings := ps1 } (some m1)).state.bundler =
      some { DelayThreshold := ps1.DelayThreshold
             BundleCountThreshold := ps1.CountThreshold
             HandlerLimit := if ps1.NumGoroutines > 0 then ps1.NumGoroutines else 25 * g } ∧
    (publishMany g (Topic.Publish g e1 { t with PublishSettings := ps1 } (some m1)).state
        steps).bundler =
      (Topic.Publish g e1 { t with PublishSettings := ps1 } (some m1)).state.bundler ∧
    (∀ (t2 : Topic) (ps : PublishSettings), t2.bundler.isSome = true →
      ({ t2 with PublishSettings := ps } : Topic).initBundler g =
        { t2 with PublishSettings := ps }) := by
  have h1 : (Topic.Publish g e1 { t with PublishSettings := ps1 } (some m1)).state.bundler =
      some { DelayThreshold := ps1.DelayThreshold
             BundleCountThreshold := ps1.CountThreshold
             HandlerLimit :=
               if ps1.NumGoroutines > 0 then ps1.NumGoroutines else 25 * g } := by
    rw [Topic.Publish_state]
    exact initBundler_of_none g _ hnone
  refine ⟨h1, ?_, ?_⟩
  · apply publishMany_bundler
    rw [h1]
    rfl
  · intro t2 ps h2
    exact initBundler_of_some g _ h2

/-- C20 on a new topic: the second call comes after the settings were changed
to a count threshold of 7, and the bundler keeps the threshold 100. -/
theorem C20_bundler_constructed_once_witness :
    (NewTopic "t").bundler = none ∧
    (publishMany 4
        (Topic.Publish 4 none { NewTopic "t" with PublishSettings := DefaultPublishSettings }
          (some { Body := [104] })).state
        [({ DefaultPublishSettings with CountThreshold := 7, NumGoroutines := 3 },
          { Body := [105] }, none)]).bundler =
      (Topic.Publish 4 none { NewTopic "t" with PublishSettings := DefaultPublishSettings }
        (some { Body := [104] })).state.bundler ∧
    (publishMany 4 (NewTopic "t")
        [(DefaultPublishSettings, { Body := [104] }, none),
          ({ DefaultPublishSettings with CountThreshold := 7, NumGoroutines := 3 },
            { Body := [105] }, none)]).bundler =
      some { DelayThreshold := 10000000, BundleCountThreshold := 100, HandlerLimit := 100 } :=
  ⟨rfl,
    (C20_bundler_constructed_once 4 (NewTopic "t") DefaultPublishSettings { Body := [104] }
      none
      [({ DefaultPublishSettings with CountThreshold := 7, NumGoroutines := 3 },
        { Body := [105] }, none)] rfl).2.1,
    by decide⟩

/-! ## Locking -/

/-- C21 (defect): `Unsubscribe` and `Subscribe` assign to the registry while
holding only the read lock, and the delivery loop increments `ErrCount` with
no lock at all, so these writes are not made under the exclusive lock; only
`initBundler` writes under `Lock`. -/
theorem C21_writes_without_exclusive_lock :
    Topic.UnsubscribeSync = [.rlock, .write .registry, .runlock] ∧
    exclusiveWrites 0 false Topic.UnsubscribeSync = false ∧
    Topic.SubscribeSync sampleHash (sampleSub "h9" "http://z") =
      [.rlock, .write .registry, .runlock] ∧
    exclusiveWrites 0 false (Topic.SubscribeSync sampleHash (sampleSub "h9" "http://z")) =
      false ∧
    deliverySync true false = [.read .registry, .write .errCount] ∧
    exclusiveWrites 0 false (deliverySync true false) = false ∧
    exclusiveWrites 0 false (deliverySync true true) = false ∧
    (NewTopic "t").initBundlerSync =
      [.rlock, .read .bundler, .runlock, .lock, .read .bundler, .write .bundler, .unlock] ∧
    exclusiveWrites 0 false (NewTopic "t").initBundlerSync = true := by
  decide

/-! ## Transaction hash -/

/-- C22 (defect): `Params` is not among the values that `NewHash` writes.
Replacing the `Params` of any transaction leaves the hashed bytes and the
hash unchanged; two calls of a contract method that differ only in their
parameter get the same pre-image. -/
theorem C22_Params_not_hashed (NewHash : Bytes → Bytes) (t : Transaction)
    (ps : Option (List Param)) :
    txHashInput { t with Params := ps } = txHashInput t ∧
    ({ t with Params := ps } : Transaction).NewHash NewHash = t.NewHash NewHash ∧
    ({ sampleTx with Method := "pay", Params := some [.number 1] } : Transaction) ≠
      { sampleTx with Method := "pay", Params := some [.number 1000] } ∧
    txHashInput { sampleTx with Method := "pay", Params := some [.number 1] } =
      txHashInput { sampleTx with Method := "pay", Params := some [.number 1000] } ∧
    txHashInput { sampleTx with Method := "pay", Params := some [.number 1] } =
      .ok [1, 171, 205, 5, 0, 0, 0, 0, 0, 0, 0, 112, 97, 121, 2, 1, 0, 0, 0, 0, 0, 0] :=
  ⟨rfl, rfl, by decide, rfl, rfl⟩

/-! ## Pre-image of the subscription hash -/

theorem le64_length (x : Int) : (le64 x).length = 8 := by
  simp [le64]

theorem le64_explicit (x : Int) :
    le64 x =
      [(x % 2 ^ 64).toNat / 256 ^ 0 % 256, (x % 2 ^ 64).toNat / 256 ^ 1 % 256,
        (x % 2 ^ 64).toNat / 256 ^ 2 % 256, (x % 2 ^ 64).toNat / 256 ^ 3 % 256,
        (x % 2 ^ 64).toNat / 256 ^ 4 % 256, (x % 2 ^ 64).toNat / 256 ^ 5 % 256,
        (x % 2 ^ 64).toNat / 256 ^ 6 % 256, (x % 2 ^ 64).toNat / 256 ^ 7 % 256] := rfl

/-- The eight bytes determine an `int64`. -/
theorem le64_injective (x y : Int) (hx1 : -(2 ^ 63) ≤ x) (hx2 : x < 2 ^ 63)
    (hy1 : -(2 ^ 63) ≤ y) (hy2 : y < 2 ^ 63) (h : le64 x = le64 y) : x = y := by
  rw [le64_explicit, le64_explicit] at h
  have hu : (x % 2 ^ 64).toNat < 2 ^ 64 := by omega
  have hv : (y % 2 ^ 64).toNat < 2 ^ 64 := by omega
  simp only [List.cons.injEq, and_true] at h
  obtain ⟨h0, h1, h2, h3, h4, h5, h6, h7⟩ := h
  norm_num at h0 h1 h2 h3 h4 h5 h6 h7 hu hv
  have huv : (x % 2 ^ 64).toNat = (y % 2 ^ 64).toNat := by omega
  omega

/-- C23, as stated, fails: address "ab" with endpoint "cd" and address "abcd"
with an empty endpoint decode to different triples, yet `MakeHash` hashes the
same bytes for both. -/
theorem C23_counterexample :
    hexDecodeString "ab" = .ok [171] ∧ hexDecodeString "cd" = .ok [205] ∧
    hexDecodeString "abcd" = .ok [171, 205] ∧ hexDecodeString "" = .ok [] ∧
    (([171], [205], 258) : Bytes × Bytes × Int) ≠ ([171, 205], [], 258) ∧
    hashInput { sampleSub "" "cd" with Address := "ab", Created := 258 } =
      .ok [171, 205, 2, 1, 0, 0, 0, 0, 0, 0] ∧
    hashInput { sampleSub "" "" with Address := "abcd", Created := 258 } =
      .ok [171, 205, 2, 1, 0, 0, 0, 0, 0, 0] ∧
    ¬ (hashInput { sampleSub "" "cd" with Address := "ab", Created := 258 } ≠
        hashInput { sampleSub "" "" with Address := "abcd", Created := 258 }) :=
  ⟨rfl, rfl, rfl, rfl, by decide, rfl, rfl, fun h => h rfl⟩

/-- C23 (amended): for subscriptions whose address and endpoint are valid
hexadecimal and whose `Created` is an `int64`, the bytes that `MakeHash`
hashes are the same exactly when the address bytes followed by the endpoint
bytes are the same sequence and `Created` is the same.  The buffer carries no
boundary between address and endpoint. -/
theorem C23_preimage_identifies_concatenation (a b : Subscription)
    (addrA endA addrB endB : Bytes)
    (hA : hexDecodeString a.Address = .ok addrA) (hEA : hexDecodeString a.Endpoint = .ok endA)
    (hB : hexDecodeString b.Address = .ok addrB) (hEB : hexDecodeString b.Endpoint = .ok endB)
    (ha1 : -(2 ^ 63) ≤ a.Created) (ha2 : a.Created < 2 ^ 63)
    (hb1 : -(2 ^ 63) ≤ b.Created) (hb2 : b.Created < 2 ^ 63) :
    hashInput a = hashInput b ↔ (addrA ++ endA = addrB ++ endB ∧ a.Created = b.Created) := by
  rw [hashInput_ok a addrA endA hA hEA, hashInput_ok b addrB endB hB hEB]
  constructor
  · intro h
    have h1 : addrA ++ endA ++ le64 a.Created = addrB ++ endB ++ le64 b.Created := by
      injection h
    have hl : (le64 a.Created).length = (le64 b.Created).length := by
      rw [le64_length, le64_length]
    obtain ⟨h2, h3⟩ := List.append_inj' h1 hl
    exact ⟨h2, le64_injective _ _ ha1 ha2 hb1 hb2 h3⟩
  · rintro ⟨h1, h2⟩
    rw [h1, h2]

/-- C23 (amended) on the two subscriptions of the counterexample. -/
theorem C23_preimage_identifies_concatenation_witness :
    hexDecodeString ({ sampleSub "" "cd" with Address := "ab", Created := 258 } :
      Subscription).Address = .ok [171] ∧
    (hashInput { sampleSub "" "cd" with Address := "ab", Created := 258 } =
        hashInput { sampleSub "" "" with Address := "abcd", Created := 258 } ↔
      (([171] : Bytes) ++ [205] = [171, 205] ++ [] ∧
        ({ sampleSub "" "cd" with Address := "ab", Created := 258 } : Subscription).Created =
          ({ sampleSub "" "" with Address := "abcd", Created := 258 } :
            Subscription).Created)) :=
  ⟨rfl,
    C23_preimage_identifies_concatenation
      { sampleSub "" "cd" with Address := "ab", Created := 258 }
      { sampleSub "" "" with Address := "abcd", Created := 258 }
      [171] [205] [171, 205] [] rfl rfl rfl rfl (by decide) (by decide) (by decide)
      (by decide)⟩

/-! ## Unsubscribing an unknown hash -/

/-- C24 (defect): on a topic that holds only "h1", `Unsubscribe("zz")` adds a
nil entry under "zz": the registry grows from one key to two.  Without the
call, `Publish` returns a response of length 1 after one attempt; after the
call, `Publish` makes the attempt for "h1" and then panics on the nil entry,
returning no response. -/
theorem C24_Unsubscribe_unknown_hash_adds_entry :
    (sampleTopicWith "t" 5 [("h1", some (sampleSub "h1" "http://a"))]).Subscriptions.contains
      "zz" = false ∧
    ((sampleTopicWith "t" 5 [("h1", some (sampleSub "h1" "http://a"))]).Unsubscribe
      "zz").2.Subscriptions = [("h1", some (sampleSub "h1" "http://a")), ("zz", none)] ∧
    ((sampleTopicWith "t" 5 [("h1", some (sampleSub "h1" "http://a"))]).Unsubscribe
      "zz").2.Subscriptions.keys = ["h1", "zz"] ∧
    (HTTPPublisher.Publish (sampleEnv [])
        (sampleWorld "t" 5 [("h1", some (sampleSub "h1" "http://a"))]) (hiRequest "t")).returned =
      true ∧
    (match HTTPPublisher.Publish (sampleEnv [])
        (sampleWorld "t" 5 [("h1", some (sampleSub "h1" "http://a"))]) (hiRequest "t") with
      | .done _ r => r.1.map PublishResponse.MessageResults
      | .panic _ _ => none) = some ["Ok"] ∧
    HTTPPublisher.Publish (sampleEnv [])
        (sampleWorld "t" 5
          ((sampleTopicWith "t" 5 [("h1", some (sampleSub "h1" "http://a"))]).Unsubscribe
            "zz").2.Subscriptions)
        (hiRequest "t") =
      .panic
        { sampleWorld "t" 5 [("h1", some (sampleSub "h1" "http://a")), ("zz", none)] with
          log := [{ key := "h1"
                    req := { method := "POST", url := "http://a", headers := [],
                             body := jsonMessages (hiRequest "t").Messages }
                    err := none }] }
        nilDeref := by
  decide

/-! ## Transaction JSON -/

theorem float64Round_small (x : Int) (h : x.natAbs < 2 ^ 53) : float64Round x = x := by
  unfold float64Round
  rw [if_pos h]

theorem int64OfFloat_small (x : Int) (h : x.natAbs < 2 ^ 53) : int64OfFloat x = x := by
  unfold int64OfFloat
  rw [if_pos (by omega)]

/-- Decoding what `MarshalJSON` wrote restores every field except `Hertz`,
which receives the value of `Type`. -/
theorem UnmarshalJSON_MarshalJSON (t : Transaction) (hT : t.Type_ < 256)
    (hV : t.Value.natAbs < 2 ^ 53) (hTime : t.Time.natAbs < 2 ^ 53)
    (hP : t.Params = none ∨ t.Params = some []) :
    ToTransactionFromJson t.MarshalJSON = .ok { t with Hertz := t.Type_ } := by
  have hTy : ((t.Type_ : Int)).natAbs < 2 ^ 53 := by
    have : ((t.Type_ : Int)).natAbs = t.Type_ := Int.natAbs_ofNat _
    omega
  have hb : byteOfFloat (t.Type_ : Int) = t.Type_ := by
    unfold byteOfFloat
    rw [int64OfFloat_small _ hTy]
    omega
  obtain ⟨Hash, Type_, From, To, Value, Code, Abi, Method, Params, Time, Signature, Hertz,
    FromName, ToName⟩ := t
  simp only at hT hV hTime hP hTy hb
  rcases hP with rfl | rfl
  · simp [ToTransactionFromJson, Transaction.UnmarshalJSON, Transaction.MarshalJSON,
      Transaction.zero, jsonUnmarshalMap, jsonIndex, GoMap.get?, decodeField,
      float64Round_small _ hV, float64Round_small _ hTime, float64Round_small _ hTy,
      int64OfFloat_small _ hV, int64OfFloat_small _ hTime, int64OfFloat_small _ hTy, hb,
      bind, Except.bind, pure, Except.pure]
  · simp [ToTransactionFromJson, Transaction.UnmarshalJSON, Transaction.MarshalJSON,
      Transaction.zero, jsonUnmarshalMap, jsonIndex, GoMap.get?, decodeField,
      float64Round_small _ hV, float64Round_small _ hTime, float64Round_small _ hTy,
      int64OfFloat_small _ hV, int64OfFloat_small _ hTime, int64OfFloat_small _ hTy, hb,
      bind, Except.bind, pure, Except.pure]

/-- C25 (defect): `UnmarshalJSON` takes the value for `Hertz` from the member
"type".  A transaction of type 1 with 7 hertz, small integers and nil `Params`
is written by `MarshalJSON` with "hertz" 7, and decoding that document gives
every field back except `Hertz`, which is 1. -/
theorem C25_Hertz_read_from_type :
    sampleTx.Type_ = 1 ∧ sampleTx.Hertz = 7 ∧ sampleTx.Params = none ∧
    jsonIndex sampleTx.MarshalJSON "hertz" = .number 7 ∧
    ToTransactionFromJson sampleTx.MarshalJSON = .ok { sampleTx with Hertz := 1 } ∧
    ({ sampleTx with Hertz := 1 } : Transaction) ≠ sampleTx ∧
    ToTransactionFromJson
        ({ Transaction.zero with Hertz := 5, Params := some [] } : Transaction).MarshalJSON =
      .ok { Transaction.zero with Hertz := 0, Params := some [] } :=
  ⟨rfl, rfl, rfl, by decide,
    UnmarshalJSON_MarshalJSON sampleTx (by decide) (by decide) (by decide) (Or.inl rfl),
    by decide,
    UnmarshalJSON_MarshalJSON { Transaction.zero with Hertz := 5, Params := some [] }
      (by decide) (by decide) (by decide) (Or.inr rfl)⟩

/-! ## Account name index -/

/-- C26 (defect): `Persist` writes the name index under the lower-cased name,
while `ToAccountByName` looks the name up as given.  For the account named
"Alice" the index key written is "key-account-name-alice" and the lookup of
"Alice" reads "key-account-name-Alice", which is absent.  For the account
named "bob" the index entry is found and holds the account key, but that key
is passed on as an address, gets the table prefix a second time, and the
lookup fails as well. -/
theorem C26_name_lookup_misses :
    (sampleAccount "Alice").NameKey asciiToLower = "key-account-name-alice" ∧
    ((sampleAccount "Alice").Persist asciiToLower sampleEncode []) =
      (none, [("table-account-ab", "Alice"),
        ("key-account-name-alice", "table-account-ab")]) ∧
    Txn.Get ((sampleAccount "Alice").Persist asciiToLower sampleEncode []).2
        ("key-account-name-" ++ (sampleAccount "Alice").Name) = .error "Key not found" ∧
    ToAccountByName sampleDecode
        ((sampleAccount "Alice").Persist asciiToLower sampleEncode []).2
        (sampleAccount "Alice").Name = .error "Key not found" ∧
    ToAccountByAddress sampleDecode
        ((sampleAccount "Alice").Persist asciiToLower sampleEncode []).2
        (sampleAccount "Alice").Address = .ok (sampleAccount "Alice") ∧
    Txn.Get ((sampleAccount "bob").Persist asciiToLower sampleEncode []).2
        ("key-account-name-" ++ (sampleAccount "bob").Name) =
      .ok (sampleAccount "bob").Key ∧
    ToAccountByName sampleDecode
        ((sampleAccount "bob").Persist asciiToLower sampleEncode []).2
        (sampleAccount "bob").Name = .error "Key not found" :=
  ⟨by decide, by decide, rfl, rfl, rfl, rfl, rfl⟩

/-! ## Publishing on a registry that holds a nil entry -/

section NilEntry

variable {σ : Type}

/-- One iteration that returns leaves a nil entry under another key nil. -/
theorem publishStep_keeps_nil (env : Env σ) (i : Nat) (key : String) (s s1 : PubLoop σ)
    (k : String) (hstep : publishStep env i key s = .done s1 ()) (hk : k ≠ key)
    (hnil : s.topic.Subscriptions.get? k = some none) :
    s1.topic.Subscriptions.get? k = some none := by
  unfold publishStep at hstep
  cases hget : s.topic.Subscriptions.get? key with
  | none =>
    rw [hget] at hstep
    simp only [Run.done.injEq, and_true] at hstep
    rw [← hstep]
    exact hnil
  | some o =>
    cases o with
    | none =>
      rw [hget] at hstep
      simp at hstep
    | some sub =>
      rw [hget] at hstep
      simp only at hstep
      by_cases hurl : env.parseURL sub.Endpoint = true
      · rw [if_pos hurl] at hstep
        split at hstep
        · split at hstep
          · simp only [Run.done.injEq, and_true] at hstep
            rw [← hstep]
            simp only [Topic.Unsubscribe]
            by_cases hh : sub.Hash = k
            · rw [hh]
              exact GoMap.get?_set_same _ _ _
            · rw [GoMap.get?_set_other _ _ _ _ hh, GoMap.get?_set_other _ _ _ _ (Ne.symm hk)]
              exact hnil
          · simp only [Run.done.injEq, and_true] at hstep
            rw [← hstep]
            simp only
            rw [GoMap.get?_set_other _ _ _ _ (Ne.symm hk)]
            exact hnil
        · simp only [Run.done.injEq, and_true] at hstep
          rw [← hstep]
          exact hnil
      · rw [if_neg hurl] at hstep
        simp at hstep

/-- The delivery loop does not return when one of the keys it still has to
visit holds a nil entry. -/
theorem publishLoop_panics_of_nil (env : Env σ) (ks : List String) :
    ∀ (i : Nat) (s : PubLoop σ),
      (∃ k ∈ ks, s.topic.Subscriptions.get? k = some none) →
      (publishLoop env ks i s).returned = false := by
  induction ks with
  | nil =>
    intro i s h
    obtain ⟨k, hk, -⟩ := h
    simp at hk
  | cons key ks ih =>
    intro i s h
    obtain ⟨k, hk, hnil⟩ := h
    simp only [publishLoop]
    cases hstep : publishStep env i key s with
    | panic s1 msg => rfl
    | done s1 u =>
      cases u
      simp only
      by_cases hkey : k = key
      · subst hkey
        unfold publishStep at hstep
        rw [hnil] at hstep
        simp at hstep
      · have hk1 : k ∈ ks := by
          rcases List.mem_cons.mp hk with h1 | h1
          · exact absurd h1 hkey
          · exact h1
        exact ih (i + 1) s1 ⟨k, hk1, publishStep_keeps_nil env i key s s1 k hstep hkey hnil⟩

theorem GoMap.mem_keys_of_get? {α : Type} (m : GoMap α) (k : String) (v : α)
    (h : m.get? k = some v) : k ∈ m.keys := by
  induction m with
  | nil => simp [GoMap.get?] at h
  | cons e m ih =>
    obtain ⟨k1, v1⟩ := e
    by_cases hk : k1 = k
    · simp [GoMap.keys, hk]
    · have h1 : GoMap.get? m k = some v := by simpa [GoMap.get?, hk] using h
      have := ih h1
      simp only [GoMap.keys] at this ⊢
      exact List.mem_cons_of_mem _ this

/-- A publish call on a registered topic whose registry holds a nil entry does
not return, in whatever order the registry is ranged. -/
theorem Publish_panics_of_nil_entry (env : Env σ) (w : World σ) (pr : PublishRequest)
    (topic : Topic) (msg : Bytes) (k : String)
    (ht : w.pub.Topics.get? pr.Topic = some topic)
    (hm : env.jsonMarshal pr.Messages = .ok msg)
    (hnil : topic.Subscriptions.get? k = some none) :
    (HTTPPublisher.Publish env w pr).returned = false := by
  have hex : w.pub.TopicExists pr.Topic = true := by
    simp [HTTPPublisher.TopicExists, GoMap.contains, ht]
  have hloop := publishLoop_panics_of_nil env topic.Subscriptions.keys 0
    { topic := topic, buf := msg, net := w.net,
      res := List.replicate topic.Subscriptions.length "", log := w.log }
    ⟨k, GoMap.mem_keys_of_get? _ _ _ hnil, hnil⟩
  unfold HTTPPublisher.Publish
  rw [GetTopic_of_exists _ _ hex, ht]
  simp only [PublishRequest.GetMessagesBytes, hm]
  cases hl : publishLoop env topic.Subscriptions.keys 0
      { topic := topic, buf := msg, net := w.net,
        res := List.replicate topic.Subscriptions.length "", log := w.log } with
  | panic s1 m => rfl
  | done s1 u =>
    rw [hl] at hloop
    simp [Run.returned] at hloop

end NilEntry

theorem trippedSubs_get?_of_perm (r : GoMap (Option Subscription))
    (h : List.Perm r trippedSubs) : GoMap.get? r "h2" = some none := by
  have hmem : (("h2", none) : String × Option Subscription) ∈ r :=
    (List.Perm.mem_iff h).mpr (by simp [trippedSubs])
  have hkeys : List.Perm (GoMap.keys r) (GoMap.keys trippedSubs) := List.Perm.map _ h
  have hnd : (GoMap.keys r).Nodup := (List.Perm.nodup_iff hkeys).mpr (by decide)
  exact GoMap.get?_of_mem r hnd "h2" none hmem

/-- C3 (defect): three subscriptions, the second unreachable, threshold 1.  The
first `Publish` returns and trips the second subscription, which leaves a nil
entry in the registry; `Unsubscribe("h2")` leaves the same registry.  On that
registry, in whatever order it is ranged, `Publish` panics and returns no
`PublishResponse` at all, although "h1" and "h3" are live; the second of two
consecutive calls therefore yields no outcomes. -/
theorem C3_no_response_after_trip :
    (HTTPPublisher.Publish (sampleEnv ["http://b"]) (sampleWorld "t" 1 threeSubs)
      (hiRequest "t")).returned = true ∧
    ((HTTPPublisher.Publish (sampleEnv ["http://b"]) (sampleWorld "t" 1 threeSubs)
      (hiRequest "t")).state.pub.Topics.get? "t").map Topic.Subscriptions =
        some trippedSubs ∧
    ((sampleTopicWith "t" 1 threeSubs).Unsubscribe "h2").2.Subscriptions = trippedSubs ∧
    (∀ r : GoMap (Option Subscription), List.Perm r trippedSubs →
      (HTTPPublisher.Publish (sampleEnv ["http://b"]) (sampleWorld "t" 1 r)
        (hiRequest "t")).returned = false) ∧
    (publishAll (sampleEnv ["http://b"]) (sampleWorld "t" 1 threeSubs)
      [hiRequest "t", hiRequest "t"]).returned = false := by
  refine ⟨by decide, by decide, by decide, ?_, by decide⟩
  intro r hr
  exact Publish_panics_of_nil_entry (sampleEnv ["http://b"]) (sampleWorld "t" 1 r)
    (hiRequest "t") (sampleTopicWith "t" 1 r) (jsonMessages (hiRequest "t").Messages) "h2"
    rfl rfl (trippedSubs_get?_of_perm r hr)

/-- C12 (defect): on the registry that a trip of "h2" in an earlier call (or
`Unsubscribe("h2")`) leaves, "h1" and "h3" are active when `Publish` starts.
In whatever order the registry is ranged the call panics and returns neither
a response nor a nil error.  Ranged in the order h1, h2, h3 it attempts "h1"
only and never reaches "h3"; ranged with the nil entry first it attempts no
subscription at all. -/
theorem C12_active_subscription_skipped :
    ((HTTPPublisher.Publish (sampleEnv ["http://b"]) (sampleWorld "t" 1 threeSubs)
      (hiRequest "t")).state.pub.Topics.get? "t").map Topic.Subscriptions =
        some trippedSubs ∧
    (∀ r : GoMap (Option Subscription), List.Perm r trippedSubs →
      (HTTPPublisher.Publish (sampleEnv []) (sampleWorld "t" 1 r)
        (hiRequest "t")).returned = false) ∧
    (HTTPPublisher.Publish (sampleEnv []) (sampleWorld "t" 1 trippedSubs)
      (hiRequest "t")).state.log.map Attempt.key = ["h1"] ∧
    (HTTPPublisher.Publish (sampleEnv [])
      (sampleWorld "t" 1
        [("h2", none), ("h1", some (sampleSub "h1" "http://a")),
          ("h3", some (sampleSub "h3" "http://c"))])
      (hiRequest "t")).state.log.map Attempt.key = [] ∧
    (publishAll (sampleEnv ["http://b"]) (sampleWorld "t" 1 threeSubs)
      [hiRequest "t", hiRequest "t"]).state.log.map Attempt.key =
        ["h1", "h2", "h3", "h1"] := by
  refine ⟨by decide, ?_, by decide, by decide, by decide⟩
  intro r hr
  exact Publish_panics_of_nil_entry (sampleEnv []) (sampleWorld "t" 1 r)
    (hiRequest "t") (sampleTopicWith "t" 1 r) (jsonMessages (hiRequest "t").Messages) "h2"
    rfl rfl (trippedSubs_get?_of_perm r hr)

end Disgo
